import Mathlib

/-!
Verification of the SonarCare medical-chat backend (Python) against its
natural-language specification.

The Python sources are shallowly embedded: pure fragments become Lean
functions on `List Char` / `String`, Python `float` scores are modelled as
exact rationals (at every concrete input used in a theorem below the float
computation was checked to agree exactly), Python `datetime` instants are
modelled as rational timestamps in seconds, fallible calls to the external
LLM are modelled as an `Except String _` parameter, and the specific regular
expressions used by the code are embedded as a small executable matcher with
Python `re.search` existence semantics.
-/

namespace SonarCare

/-- Python `\s` whitespace class (ASCII part, which is all the code relies on). -/
def isPySpace (c : Char) : Bool :=
  c = ' ' || c = '\t' || c = '\n' || c = '\r' || c = Char.ofNat 11 || c = Char.ofNat 12

/-- ASCII lower-case letter, the `[a-z]` class. -/
def isLowerAscii (c : Char) : Bool := 'a' ≤ c && c ≤ 'z'

/-- ASCII upper-case letter, the `[A-Z]` class. -/
def isUpperAscii (c : Char) : Bool := 'A' ≤ c && c ≤ 'Z'

/-- ASCII digit. -/
def isDigitAscii (c : Char) : Bool := '0' ≤ c && c ≤ '9'

/-- Python `\w` word character (ASCII part), used for `\b` boundaries. -/
def isWordChar (c : Char) : Bool := isLowerAscii c || isUpperAscii c || isDigitAscii c || c = '_'

/-- Python `str.lower` (ASCII part). -/
def pyLower (s : List Char) : List Char := s.map Char.toLower

/-- Python `str.upper` (ASCII part). -/
def pyUpper (s : List Char) : List Char := s.map Char.toUpper

/-- Python `str.strip()`: drop leading and trailing whitespace. -/
def pyStrip (s : List Char) : List Char :=
  ((s.dropWhile isPySpace).reverse.dropWhile isPySpace).reverse

/-- Does `p` occur at the start of `s`? -/
def listStartsWith : List Char → List Char → Bool
  | [], _ => true
  | _ :: _, [] => false
  | p :: ps, x :: xs => p == x && listStartsWith ps xs

/-- Python `sub in s` substring containment. -/
def listHasSub (sub : List Char) : List Char → Bool
  | [] => listStartsWith sub []
  | x :: xs => listStartsWith sub (x :: xs) || listHasSub sub xs

/-- Python `sub in s` on `String`s. -/
def strHasSub (sub s : String) : Bool := listHasSub sub.data s.data

/-- Python `s.endswith suffix` on char lists. -/
def listEndsWith (suf s : List Char) : Bool := listStartsWith suf.reverse s.reverse

/-!
## `SonarAgent._clean_response_formatting` (sonar_agent.py lines 142-172)

The function is a pipeline of eight text passes.  Each Python `re.sub` below
is embedded as a direct scanner with the same leftmost-match,
resume-after-match semantics as CPython `re`.
-/

/-- Pass 1, `re.sub(r'\n\s*\n\s*\n+', '\n\n', text)`.
A match starts at a `\n`, consists only of `\s` characters, contains at least
three `\n`, and (by greediness) extends exactly to the last `\n` of the
maximal whitespace run; it is replaced by two newlines and scanning resumes
after the match. -/
def normParaAux : Nat → List Char → List Char
  | 0, s => s
  | _, [] => []
  | fuel + 1, c :: rest =>
    if c = '\n' then
      let run := c :: rest.takeWhile isPySpace
      if 3 ≤ run.countP (· = '\n') then
        -- whitespace of the run after its last newline, then the text after the run
        let tail := (run.reverse.takeWhile (· ≠ '\n')).reverse
        '\n' :: '\n' :: normParaAux fuel (tail ++ rest.drop (run.length - 1))
      else c :: normParaAux fuel rest
    else c :: normParaAux fuel rest

/-- Pass 1 at top level (fuel = input length suffices: every step strictly
shrinks the list being scanned). -/
def normPara (s : List Char) : List Char := normParaAux s.length s

/-- Pass 2, `re.sub(r'([a-z])([A-Z][a-z])', r'\1 \2', text)`: on a match the
three characters are consumed and scanning resumes after them. -/
def wordJoin : List Char → List Char
  | a :: b :: c :: rest =>
    if isLowerAscii a && isUpperAscii b && isLowerAscii c then
      a :: ' ' :: b :: c :: wordJoin rest
    else a :: wordJoin (b :: c :: rest)
  | s => s

/-- Pass 3, `re.sub(r' {2,}', ' ', text)`: collapse runs of two or more
spaces to a single space. -/
def collapseSpaces : List Char → List Char
  | [] => []
  | [c] => [c]
  | a :: b :: rest =>
    if a = ' ' && b = ' ' then collapseSpaces (b :: rest)
    else a :: collapseSpaces (b :: rest)

/-- Pass 4, `re.sub(r'\n {2,}', '\n', text)`: a newline followed by two or
more spaces loses the spaces. -/
def nlSpacesAux : Nat → List Char → List Char
  | 0, s => s
  | _, [] => []
  | fuel + 1, c :: rest =>
    if c = '\n' then
      let sps := rest.takeWhile (· = ' ')
      if 2 ≤ sps.length then '\n' :: nlSpacesAux fuel (rest.drop sps.length)
      else c :: nlSpacesAux fuel rest
    else c :: nlSpacesAux fuel rest

/-- Pass 4 at top level. -/
def nlSpaces (s : List Char) : List Char := nlSpacesAux s.length s

/-- Candidate colon indices for pass 5's greedy `[A-Z][^.!?]*:(\s|$)` content:
positions `j` before the first `.`/`!`/`?` holding `':'` whose successor is
whitespace or the end of the string (ascending, so the last is the greedy one). -/
def headerCands (xs : List Char) : List Nat :=
  (List.range (xs.takeWhile (fun c => c ≠ '.' && c ≠ '!' && c ≠ '?')).length).filter fun j =>
    xs.get? j == some ':' &&
      (match xs.get? (j + 1) with
       | none => true
       | some c => isPySpace c)

/-- Try to match pass 5's `([A-Z][^.!?]*):(\s|$)` at the start of `s`,
returning the replacement output `**\2:**\3` and the unscanned remainder. -/
def headerContent (s : List Char) : Option (List Char × List Char) :=
  match s with
  | [] => none
  | x :: xs =>
    if isUpperAscii x then
      match (headerCands xs).getLast? with
      | none => none
      | some j =>
        let g3 := match xs.get? (j + 1) with
          | some c => [c]
          | none => []
        some ('*' :: '*' :: x :: (xs.take j ++ ':' :: '*' :: '*' :: g3), xs.drop (j + 2))
    else none

/-- Pass 5, `re.sub(r'(\n|^)([A-Z][^.!?]*):(\s|$)', r'\1**\2:**\3', text)`.
`atStart` records whether `^` can still match (only at offset 0); a consumed
trailing `\s` of one match (group 3) cannot start the next match. -/
def headerBoldAux : Nat → Bool → List Char → List Char
  | 0, _, s => s
  | _, _, [] => []
  | fuel + 1, atStart, c :: rest =>
    if c = '\n' then
      match headerContent rest with
      | some (out, rem) => '\n' :: (out ++ headerBoldAux fuel false rem)
      | none => c :: headerBoldAux fuel false rest
    else if atStart then
      match headerContent (c :: rest) with
      | some (out, rem) => out ++ headerBoldAux fuel false rem
      | none => c :: headerBoldAux fuel false rest
    else c :: headerBoldAux fuel false rest

/-- Pass 5 at top level. -/
def headerBold (s : List Char) : List Char := headerBoldAux s.length true s

/-- `text.count('**')`: non-overlapping occurrences, scanned left to right. -/
def boldCount : List Char → Nat
  | '*' :: '*' :: rest => 1 + boldCount rest
  | _ :: rest => boldCount rest
  | [] => 0

/-- Does `re.search(r'\*\*([^*]+)$', text)` match: the text ends in `**`
followed by one or more non-asterisk characters? -/
def boldTailOk (s : List Char) : Bool :=
  let r := s.reverse
  let tl := r.takeWhile (· ≠ '*')
  decide (tl ≠ []) && listStartsWith ['*', '*'] (r.drop tl.length)

/-- Pass 6 (sonar_agent.py lines 165-166): close an unbalanced `**` when the
count of `**` occurrences is odd. -/
def boldClose (s : List Char) : List Char :=
  if boldCount s % 2 = 1 then
    if boldTailOk s then s ++ ['*', '*'] else s
  else s

/-- Count of `re.findall(r'(?<!\*)\*(?!\*)', text)`: asterisks adjacent to no
other asterisk; `p` is the previous character. -/
def countSingleStar : Option Char → List Char → Nat
  | _, [] => 0
  | p, c :: rest =>
    (if c = '*' && p ≠ some '*' && rest.head? ≠ some '*' then 1 else 0) +
      countSingleStar (some c) rest

/-- Does `re.search(r'(?<!\*)\*([^*]+)$', text)` match: the text ends in a
lone `*` (not preceded by `*`) followed by one or more non-asterisks? -/
def italTailOk (s : List Char) : Bool :=
  let r := s.reverse
  let tl := r.takeWhile (· ≠ '*')
  decide (tl ≠ []) && r.get? tl.length == some '*' && r.get? (tl.length + 1) != some '*'

/-- Pass 7 (sonar_agent.py lines 168-170): close an unbalanced single `*`. -/
def italClose (s : List Char) : List Char :=
  if countSingleStar none s % 2 = 1 then
    if italTailOk s then s ++ ['*'] else s
  else s

/-- `SonarAgent._clean_response_formatting`: the eight passes in source order,
ending with `text.strip()`. -/
def clean_response_formatting (s : List Char) : List Char :=
  pyStrip (italClose (boldClose (headerBold (nlSpaces (collapseSpaces (wordJoin (normPara s)))))))

-- Concrete sanity checks of the embedding against hand-traced CPython runs.
example : clean_response_formatting "aBcDe".data = "a BcDe".data := by decide
example : clean_response_formatting "a BcDe".data = "a Bc De".data := by decide
example : clean_response_formatting "A:\nB:\nC: x".data = "**A:\nB:\nC:** x".data := by decide

/-!
## A small regular-expression matcher

The classifier and the healthcare gate test fixed regular expressions with
`re.search(...)` used only for its truth value, so only the existence of a
match matters and backtracking order is irrelevant.  The embedded patterns
use literals, alternation, `?`, `\s+`, `^`, and `\b`.
-/

/-- Syntax of the regular expressions appearing in the sources. -/
inductive Re where
  | eps
  | lit (c : Char)
  | alt (a b : Re)
  | seq (a b : Re)
  | opt (a : Re)
  | plus (f : Char → Bool)
  | bos
  | wb

/-- Is the previous character a word character (`none` = edge of string)? -/
def isWordOpt : Option Char → Bool
  | none => false
  | some c => isWordChar c

/-- Match one or more characters of class `f`, then the continuation `k`
(receiving the new previous character and remainder). -/
def rePlusGo (f : Char → Bool) : List Char → (Option Char → List Char → Bool) → Bool
  | [], _ => false
  | x :: xs, k => f x && (k (some x) xs || rePlusGo f xs k)

/-- Does `r` match a prefix of `s` (with previous character `p`) such that the
continuation `k` accepts the remainder?  Existence semantics. -/
def reMat : Re → Option Char → List Char → (Option Char → List Char → Bool) → Bool
  | .eps, p, s, k => k p s
  | .lit c, _, s, k =>
    match s with
    | [] => false
    | x :: xs => x == c && k (some x) xs
  | .alt a b, p, s, k => reMat a p s k || reMat b p s k
  | .seq a b, p, s, k => reMat a p s (fun p2 s2 => reMat b p2 s2 k)
  | .opt a, p, s, k => reMat a p s k || k p s
  | .plus f, _, s, k => rePlusGo f s k
  | .bos, p, s, k => p.isNone && k p s
  | .wb, p, s, k => (isWordOpt p != isWordOpt s.head?) && k p s

/-- Try a match of `r` at every position of `s` (`p` = character before the
current position). -/
def reSearchAux (r : Re) : Option Char → List Char → Bool
  | p, [] => reMat r p [] fun _ _ => true
  | p, x :: xs => reMat r p (x :: xs) (fun _ _ => true) || reSearchAux r (some x) xs

/-- Python `re.search(r, s) is not None`. -/
def reSearch (r : Re) (s : List Char) : Bool := reSearchAux r none s

/-- Literal word as a regular expression. -/
def reStr : List Char → Re
  | [] => .eps
  | c :: cs => .seq (.lit c) (reStr cs)

/-- Literal word from a string literal. -/
def rs (s : String) : Re := reStr s.data

/-- Alternation of a list of branches (left-to-right as in the source). -/
def altL : List Re → Re
  | [] => .eps
  | [r] => r
  | r :: rest => .alt r (altL rest)

/-- Sequence of a list of pieces. -/
def seqL : List Re → Re
  | [] => .eps
  | [r] => r
  | r :: rest => .seq r (seqL rest)

/-- The `\s+` pattern. -/
def wsP : Re := .plus isPySpace

-- Matcher sanity checks (mirroring CPython behaviour).
example : reSearch (seqL [.wb, altL [rs "pain", rs "hurt", rs "ache", rs "aching"], .wb])
    "it hurt me".data = true := by decide
example : reSearch (seqL [.wb, altL [rs "pain", rs "ache"], .wb]) "backache".data = false := by
  decide
example : reSearch (seqL [.bos, rs "hi"]) "say hi".data = false := by decide

/-!
## `FastIntentClassifier` (fast_intent_classifier.py)

Scores are Python floats; they are embedded as exact (unreduced) fractions.
For every concrete query appearing in a theorem below, the float computation
was traced and agrees exactly with the rational one.  All denominators built
by the code are positive (they are products of lengths of the fixed,
non-empty keyword/pattern lists), under which the cross-multiplication
order below is the rational order.
-/

/-- An exact fraction: the model of a Python float score. -/
structure Frac where
  num : Int
  den : Nat
deriving DecidableEq, Repr

/-- Embed a natural number. -/
def fofNat (n : Nat) : Frac := ⟨n, 1⟩

/-- Fraction multiplication. -/
def fmul (a b : Frac) : Frac := ⟨a.num * b.num, a.den * b.den⟩

/-- Division of a score by a (positive) list length. -/
def fdivNat (a : Frac) (n : Nat) : Frac := ⟨a.num, a.den * n⟩

/-- Fraction addition. -/
def fadd (a b : Frac) : Frac := ⟨a.num * b.den + b.num * a.den, a.den * b.den⟩

/-- `a ≤ b` by cross-multiplication. -/
def fle (a b : Frac) : Bool := a.num * (b.den : Int) ≤ b.num * (a.den : Int)

/-- `a < b` by cross-multiplication. -/
def flt (a b : Frac) : Bool := a.num * (b.den : Int) < b.num * (a.den : Int)

/-- Value equality of fractions. -/
def feq (a b : Frac) : Bool := a.num * (b.den : Int) == b.num * (a.den : Int)

/-- `IntentPattern` (fast_intent_classifier.py lines 10-16). -/
structure IntentPattern where
  intent : String
  keywords : List String
  patterns : List Re
  priority : Nat

/-- A prior conversation message as the classifier sees it. -/
structure HistMsg where
  sender : String
  text : String

/-- `FastIntentClassifier._load_intent_patterns` (lines 31-143), in source
order. -/
def intentPatterns : List IntentPattern := [
  { intent := "greeting"
    keywords := ["hello", "hi", "hey", "good morning", "good afternoon", "good evening",
                 "greetings", "start"]
    patterns := [
      seqL [.bos, altL [rs "hello", rs "hi", rs "hey",
        seqL [rs "good", wsP, altL [rs "morning", rs "afternoon", rs "evening"]],
        .seq (rs "greeting") (.opt (.lit 's'))], .wb],
      seqL [.bos, altL [rs "start", rs "begin", rs "let\x27s start"]],
      seqL [.bos, altL [rs "how are you", rs "what\x27s up"]]]
    priority := 10 },
  { intent := "symptom_inquiry"
    keywords := ["pain", "hurt", "ache", "symptom", "feeling", "sick", "nausea", "fever",
                 "headache", "cough", "sore", "tired", "fatigue", "dizzy", "rash", "swelling",
                 "bleeding", "shortness of breath"]
    patterns := [
      seqL [.wb, altL [rs "pain", rs "hurt", rs "ache", rs "aching"], .wb],
      seqL [.wb, rs "feeling", wsP,
        altL [rs "sick", rs "unwell", rs "bad", rs "awful", rs "terrible"]],
      seqL [.wb, rs "have", wsP,
        altL [.seq (rs "symptom") (.opt (.lit 's')), rs "fever", rs "headache", rs "cough"]],
      seqL [.wb, rs "experiencing", wsP],
      seqL [.wb, rs "what", wsP, altL [rs "is", seqL [rs "could", wsP, rs "be"]], wsP,
        altL [rs "wrong", rs "causing"]],
      seqL [.wb, rs "why", wsP,
        altL [seqL [rs "do", wsP, rs "i"], seqL [rs "am", wsP, rs "i"]], wsP,
        altL [rs "feel", rs "have", rs "experiencing"]]]
    priority := 8 },
  { intent := "treatment_advice"
    keywords := ["treatment", "medicine", "medication", "cure", "remedy", "therapy", "heal",
                 "drug", "prescription", "dose", "dosage", "antibiotic", "pill", "tablet"]
    patterns := [
      seqL [.wb, altL [rs "treatment", rs "therapy", rs "cure", rs "remedy"], wsP,
        altL [rs "for", rs "of"]],
      seqL [.wb, rs "how", wsP, rs "to", wsP, altL [rs "treat", rs "cure", rs "heal"]],
      seqL [.wb, altL [rs "medicine", rs "medication", rs "drug", rs "prescription"], wsP,
        altL [rs "for", rs "to"]],
      seqL [.wb, rs "what", wsP,
        altL [rs "medicine", rs "medication", rs "drug", rs "treatment"]],
      seqL [.wb, altL [rs "dosage", rs "dose", seqL [rs "how", wsP, rs "much"]]]]
    priority := 7 },
  { intent := "hospital_search"
    keywords := ["hospital", "clinic", "doctor", "physician", "medical center", "emergency room",
                 "urgent care", "specialist", "near me", "nearby", "location", "address"]
    patterns := [
      seqL [.wb, altL [rs "hospital", rs "clinic", seqL [rs "medical", wsP, rs "center"]], wsP,
        altL [rs "near", rs "nearby", rs "close"]],
      seqL [.wb, rs "find", wsP, altL [rs "hospital", rs "clinic", rs "doctor", rs "physician"]],
      seqL [.wb, rs "where", wsP, altL [rs "is", seqL [rs "can", wsP, rs "i", wsP, rs "find"]],
        wsP, altL [rs "hospital", rs "clinic", rs "doctor"]],
      seqL [.wb, altL [seqL [rs "emergency", wsP, rs "room"], seqL [rs "urgent", wsP, rs "care"]]],
      seqL [.wb, altL [seqL [rs "near", wsP, rs "me"], rs "nearby",
        seqL [rs "in", wsP, rs "my", wsP, rs "area"]]]]
    priority := 6 },
  { intent := "department_inquiry"
    keywords := ["specialist", "department", "cardiology", "neurology", "dermatology",
                 "orthopedic", "pediatric", "oncology", "psychiatry", "gynecology", "urology"]
    patterns := [
      seqL [.wb, rs "what", wsP, altL [rs "specialist", rs "department"]],
      seqL [.wb, rs "which", wsP, altL [rs "doctor", rs "specialist"]],
      seqL [.wb, rs "should", wsP, rs "i", wsP, rs "see", wsP, altL [rs "a", rs "an"], wsP,
        altL [rs "specialist", rs "doctor"]],
      seqL [.wb, altL [rs "cardiology", rs "neurology", rs "dermatology", rs "orthopedic",
        rs "pediatric", rs "oncology", rs "psychiatry", rs "gynecology", rs "urology"], .wb]]
    priority := 5 },
  { intent := "deep_medical_inquiry"
    keywords := ["research", "study", "clinical trial", "breakthrough", "latest", "recent",
                 "new research", "medical advance", "scientific", "publication"]
    patterns := [
      seqL [.wb, altL [rs "latest", rs "recent", rs "new"], wsP,
        altL [rs "research", rs "study", rs "breakthrough", rs "advance"]],
      seqL [.wb, altL [seqL [rs "clinical", wsP, rs "trial"], seqL [rs "medical", wsP, rs "study"]]],
      seqL [.wb, rs "scientific", wsP, altL [rs "evidence", rs "publication", rs "paper"]],
      seqL [.wb, rs "research", wsP, altL [rs "shows", rs "indicates", rs "suggests"]],
      seqL [.wb, rs "what", wsP, altL [rs "does", rs "do"], wsP,
        altL [rs "research", rs "studies"], wsP, rs "say"]]
    priority := 4 },
  { intent := "unbiased_factual_request"
    keywords := ["facts", "evidence", "pros and cons", "advantages", "disadvantages", "unbiased",
                 "objective", "compare", "comparison", "versus", "vs"]
    patterns := [
      seqL [.wb, altL [seqL [rs "pros", wsP, rs "and", wsP, rs "cons"],
        seqL [.seq (rs "advantage") (.opt (.lit 's')), wsP, rs "and", wsP,
          .seq (rs "disadvantage") (.opt (.lit 's'))]]],
      seqL [.wb, altL [rs "unbiased", rs "objective", rs "neutral"], wsP,
        altL [rs "view", rs "information", rs "facts"]],
      seqL [.wb, altL [rs "compare", rs "comparison", rs "versus", rs "vs"], .wb],
      seqL [.wb, altL [rs "fact", rs "facts", rs "evidence"], wsP, altL [rs "about", rs "on"]],
      seqL [.wb, rs "what", wsP, rs "are", wsP, rs "the", wsP,
        altL [rs "facts", rs "pros", rs "cons"]]]
    priority := 3 },
  { intent := "comprehensive_health_assessment"
    keywords := ["complete", "comprehensive", "full", "thorough", "assessment", "evaluation",
                 "checkup", "analysis", "overall health", "general health"]
    patterns := [
      seqL [.wb, altL [rs "complete", rs "comprehensive", rs "full", rs "thorough"], wsP,
        altL [rs "assessment", rs "evaluation", rs "checkup", rs "analysis"]],
      seqL [.wb, altL [rs "overall", rs "general"], wsP, rs "health", wsP,
        altL [rs "assessment", rs "evaluation", rs "check"]],
      seqL [.wb, rs "health", wsP, altL [rs "assessment", rs "evaluation", rs "analysis"]],
      seqL [.wb, rs "assess", wsP, rs "my", wsP, altL [rs "health", rs "condition"]],
      seqL [.wb, rs "thorough", wsP, altL [rs "evaluation", rs "assessment"]]]
    priority := 2 }]

/-- The score of one intent pattern for a normalized query
(fast_intent_classifier.py lines 179-209):
`(matches/total) * priority * 10` for keywords, `* 20` for patterns, plus a
context boost of 5. -/
def scoreIntent (p : IntentPattern) (nq : List Char) (hist : List HistMsg) : Frac :=
  let km := (p.keywords.filter fun kw => listHasSub kw.data nq).length
  let s1 := if 0 < km then fmul (fmul (fdivNat (fofNat km) p.keywords.length)
    (fofNat p.priority)) (fofNat 10) else fofNat 0
  let pm := (p.patterns.filter fun r => reSearch r nq).length
  let s2 := if 0 < pm then fmul (fmul (fdivNat (fofNat pm) p.patterns.length)
    (fofNat p.priority)) (fofNat 20) else fofNat 0
  let s3 :=
    match hist.getLast? with
    | some m =>
      if m.sender == "bot" && listHasSub p.intent.data (pyLower m.text.data) then fofNat 5
      else fofNat 0
    | none => fofNat 0
  fadd (fadd s1 s2) s3

/-- Python `max(d, key=d.get)` over an insertion-ordered dict: the first
entry attaining the maximal value. -/
def firstMax : List (String × Frac) → Option (String × Frac)
  | [] => none
  | x :: xs => some (xs.foldl (fun acc y => if flt acc.2 y.2 then y else acc) x)

/-- Association-list lookup (first matching key), the dict read `d[k]`. -/
def lookupA (cache : List (List Char × String)) (k : List Char) : Option String :=
  (cache.find? fun e => e.1 == k).map (·.2)

/-- `FastIntentClassifier.classify_intent` (lines 145-248): returns the
detected intent, the `method` metadata field, and the updated classification
cache.  The cache is the insertion-ordered `self._cache` dict. -/
def classify_intent (cache : List (List Char × String)) (query : String)
    (hist : List HistMsg) : String × String × List (List Char × String) :=
  let nq := pyStrip (pyLower query.data)
  match lookupA cache nq with
  | some i => (i, "cache_hit", cache)
  | none =>
    let scores := intentPatterns.map fun p => (p.intent, scoreIntent p nq hist)
    let detected :=
      match firstMax scores with
      | some (best, bscore) => if fle (fofNat 10) bscore then best else "symptom_inquiry"
      | none => "symptom_inquiry"
    let cache1 := cache ++ [(nq, detected)]
    let cache2 := if 1000 < cache1.length then cache1.drop 100 else cache1
    (detected, "pattern_matching", cache2)

/-!
## `ActionOperatorAgent` (action_operator_agent.py)

The intent cache maps an md5 of the normalized query to `(intent,
timestamp)`.  The hash is modelled as the normalized query itself
(a collision-free abstraction of `hashlib.md5(normalized).hexdigest()`), and
`datetime` instants as integer seconds, so `self._cache_max_age =
timedelta(hours=1)` is 3600.
-/

/-- The spec's closed intent enumeration (spec §3 "Intent"). -/
def specIntentEnum : List String :=
  ["greeting", "symptom_inquiry", "treatment_advice", "hospital_search", "department_inquiry",
   "deep_medical_inquiry", "unbiased_factual_request", "comprehensive_health_assessment",
   "unknown"]

/-- `ActionOperatorAgent.INTENTS` (lines 19-28). -/
def INTENTS : List String :=
  ["greeting", "symptom_inquiry", "treatment_advice", "hospital_search", "department_inquiry",
   "deep_medical_inquiry", "unbiased_factual_request", "unknown"]

/-- `ActionOperatorAgent.INTENT_KEYWORDS` (lines 31-38). -/
def INTENT_KEYWORDS (intent : String) : List String :=
  if intent = "greeting" then
    ["hello", "hi", "hey", "good morning", "good afternoon", "good evening", "greetings"]
  else if intent = "symptom_inquiry" then
    ["symptoms", "feeling", "pain", "ache", "hurt", "sick", "unwell", "fever", "headache",
     "nausea"]
  else if intent = "treatment_advice" then
    ["treatment", "medicine", "medication", "cure", "therapy", "remedy", "how to treat"]
  else if intent = "hospital_search" then
    ["hospital", "clinic", "medical center", "doctor near", "find doctor", "where can i"]
  else if intent = "department_inquiry" then
    ["which doctor", "what specialist", "department", "who should i see", "what kind of doctor"]
  else if intent = "deep_medical_inquiry" then
    ["research", "breakthrough", "study", "studies", "clinical trial", "latest", "recent",
     "new research", "scientific", "advancement", "discovery", "findings", "evidence",
     "investigation", "cutting-edge", "innovation", "development", "progress", "emerging",
     "novel", "current research", "medical research", "breakthroughs"]
  else []

/-- Does the lower-cased query contain any keyword of the given intent
(`any(keyword in query_lower for keyword in ...)`)? -/
def hasIntentKeyword (intent : String) (queryLower : List Char) : Bool :=
  (INTENT_KEYWORDS intent).any fun kw => listHasSub kw.data queryLower

/-- `ActionOperatorAgent._detect_intent_by_keywords` (lines 58-86): checks in
the source's order greeting, deep-research, symptom, treatment, hospital,
department; returns the first hit. -/
def detect_intent_by_keywords (query : String) : Option String :=
  let ql := pyLower query.data
  if hasIntentKeyword "greeting" ql then some "greeting"
  else if hasIntentKeyword "deep_medical_inquiry" ql then some "deep_medical_inquiry"
  else if hasIntentKeyword "symptom_inquiry" ql then some "symptom_inquiry"
  else if hasIntentKeyword "treatment_advice" ql then some "treatment_advice"
  else if hasIntentKeyword "hospital_search" ql then some "hospital_search"
  else if hasIntentKeyword "department_inquiry" ql then some "department_inquiry"
  else none

/-- One entry of `self._intent_cache`: key (the normalized query standing in
for its md5) with the stored `(intent, timestamp)` value. -/
structure OpCacheEntry where
  key : List Char
  intent : String
  ts : Int
deriving DecidableEq, Repr

/-- `ActionOperatorAgent._get_cache_key` (lines 52-56) under the
hash-as-identity abstraction. -/
def op_get_cache_key (query : String) : List Char := pyStrip (pyLower query.data)

/-- Dict lookup in `self._intent_cache`. -/
def opCacheLookup (cache : List OpCacheEntry) (k : List Char) : Option (String × Int) :=
  (cache.find? fun e => e.key == k).map fun e => (e.intent, e.ts)

/-- The result of `ActionOperatorAgent.process`: the detected intent, the
`method`-style metadata tag, and whether the metadata carries `cached: True`. -/
structure OpResult where
  intent : String
  method : String
  cached : Bool
deriving DecidableEq, Repr

/-- `ActionOperatorAgent.process` (lines 107-221).  `now` is the current time
in seconds; `llm` is the outcome of the fallback LLM classification call
(`.error` = the call raised). -/
def operator_process (cache : List OpCacheEntry) (now : Int) (query : String)
    (llm : Except String String) : OpResult :=
  let cacheKey := op_get_cache_key query
  let viaCache : Option OpResult :=
    match opCacheLookup cache cacheKey with
    | some (intent, cachedTime) =>
      if now - cachedTime < 3600 then some ⟨intent, "cache", true⟩ else none
    | none => none
  match viaCache with
  | some r => r
  | none =>
    match detect_intent_by_keywords query with
    | some intent => ⟨intent, "keyword_detection", false⟩
    | none =>
      match llm with
      | .ok resp =>
        let intent := String.mk (pyLower (pyStrip resp.data))
        let intent := if INTENTS.contains intent then intent else "symptom_inquiry"
        ⟨intent, "llm_detection", false⟩
      | .error _ => ⟨"symptom_inquiry", "fallback", false⟩

/-!
## `SonarAgent` source extraction and response generation (sonar_agent.py)
-/

/-- Replace every occurrence of `pat` by `rep`, left to right
(Python `str.replace`). -/
def replaceAllSub (pat rep : List Char) : Nat → List Char → List Char
  | 0, s => s
  | _, [] => []
  | fuel + 1, c :: rest =>
    if pat ≠ [] && listStartsWith pat (c :: rest) then
      rep ++ replaceAllSub pat rep fuel ((c :: rest).drop pat.length)
    else c :: replaceAllSub pat rep fuel rest

/-- `urlparse(url).netloc` for the `http(s)://` URLs this code feeds it:
the text between the scheme separator and the next `/`, `?` or `#`. -/
def urlNetloc (url : List Char) : List Char :=
  let afterScheme :=
    if listStartsWith "https://".data url then url.drop 8
    else if listStartsWith "http://".data url then url.drop 7
    else url
  afterScheme.takeWhile fun c => c ≠ '/' && c ≠ '?' && c ≠ '#'

/-- `format_url_as_link` (sonar_agent.py lines 188-226): fixed domain→name
table, falling back to the `www.`-stripped domain, as `[text](url)`. -/
def format_url_as_link (url : List Char) : List Char :=
  let lt :=
    if listHasSub "mayoclinic.org".data url then "Mayo Clinic".data
    else if listHasSub "pubmed.ncbi.nlm.nih.gov".data url then "PubMed / NCBI".data
    else if listHasSub "nih.gov".data url then "National Institutes of Health".data
    else if listHasSub "cdc.gov".data url then "Centers for Disease Control".data
    else if listHasSub "who.int".data url then "World Health Organization".data
    else if listHasSub "webmd.com".data url then "WebMD".data
    else if listHasSub "cochranelibrary.com".data url then "Cochrane Library".data
    else if listHasSub "ama-assn.org".data url then "American Medical Association".data
    else if listHasSub "cms.gov".data url then "Centers for Medicare & Medicaid Services".data
    else if listHasSub "fda.gov".data url then "U.S. Food and Drug Administration".data
    else if listHasSub "cancer.gov".data url then "National Cancer Institute".data
    else if listHasSub "heart.org".data url then "American Heart Association".data
    else if listHasSub "diabetes.org".data url then "American Diabetes Association".data
    else replaceAllSub "www.".data [] (urlNetloc url).length (urlNetloc url)
  '[' :: (lt ++ ']' :: '(' :: url ++ [')'])

/-- `citation.startswith(('http://', 'https://'))`. -/
def isHttpUrl (c : String) : Bool :=
  listStartsWith "http://".data c.data || listStartsWith "https://".data c.data

/-- The fixed wrapper text of the sources section (lines 248-252). -/
def sourcesSectionOf (sources : List (List Char)) : List Char :=
  ("\n\n**Verified Sources and References:**\n\n".data ++
    "This response includes information from recent internet research. You can verify the information using these sources:\n\n".data) ++
  (sources.map fun s => "• ".data ++ s ++ ['\n']).flatten ++
  "\n*Please verify information with these sources and consult healthcare professionals for personalized medical advice.*".data

/-- `SonarAgent._extract_and_format_sources` (lines 174-256).  The input is
the `citations` attribute of the upstream response (`none` when the response
object carries no citations, which is also what the `None` argument at line
291 produces).  Returns `(sources_section, source_urls)`. -/
def extract_and_format_sources (citations : Option (List String)) : List Char × List String :=
  match citations with
  | none => ([], [])
  | some cits =>
    let sources := (cits.enum.filterMap fun p =>
      if isHttpUrl p.2 then
        some (('[' :: (Nat.repr (p.1 + 1)).data ++ "] ".data) ++ format_url_as_link p.2.data)
      else none)
    let source_urls := cits.filter isHttpUrl
    if sources ≠ [] ∧ 0 < source_urls.length then
      (sourcesSectionOf sources, source_urls)
    else ([], [])

/-- The metadata of a generated response, restricted to the fields the claims
are about. -/
structure GenMeta where
  sources : List String
  has_sources : Bool
  grounded : Bool
deriving DecidableEq, Repr

/-- `SonarAgent.generate_response`, API path (lines 277-316): the PerplexiPy
client returns bare text (`llmText`), so `_extract_and_format_sources` is
called with `None`; the cleaned text gets the sources section appended only
when that section is non-empty. -/
def generate_response_api (llmText : String) : String × GenMeta :=
  let secUrls := extract_and_format_sources none
  let cleaned := clean_response_formatting llmText.data
  let text := if secUrls.1 ≠ [] then cleaned ++ secUrls.1 else cleaned
  (String.mk text,
   { sources := secUrls.2
     has_sources := decide (0 < secUrls.2.length)
     grounded := decide (0 < secUrls.2.length) })

/-!
## Stream events (spec §3 `StreamEvent`) and `SonarAgent` streaming
-/

/-- The metadata fields of a stream event that the claims below depend on
(the Python dicts carry further diagnostic entries no claim mentions). -/
structure EventMeta where
  err : Option String := none
  rejected : Bool := false
  intent : Option String := none
deriving DecidableEq, Repr

/-- The final bot message attached to an `end` event, restricted likewise. -/
structure BotMessage where
  text : String
  sender : String
  sessionId : String
  userId : String
  intent : Option String
  rejected : Bool
deriving DecidableEq, Repr

/-- One streamed event `{type, data, done, metadata, message}`. -/
structure StreamEvent where
  type : String
  data : String
  done : Bool
  meta : EventMeta := {}
  message : Option BotMessage := none
deriving DecidableEq, Repr

/-- `re.split(r'([.!?]\s+)', text)` keeping the captured separators
(sonar_agent.py line 350). -/
def splitSentAux : Nat → List Char → List Char → List (List Char)
  | 0, acc, s => [acc ++ s]
  | _, acc, [] => [acc]
  | fuel + 1, acc, c :: rest =>
    if (c = '.' || c = '!' || c = '?') && (match rest.head? with
        | some d => isPySpace d
        | none => false) then
      let sps := rest.takeWhile isPySpace
      acc :: (c :: sps) :: splitSentAux fuel [] (rest.drop sps.length)
    else splitSentAux fuel (acc ++ [c]) rest

/-- The emission loop of `generate_streaming_response` (lines 350-375):
segments accumulate into `current_text`, flushed as a chunk at sentence ends,
at length ≥ 50, or on the last segment. -/
def sonarChunkLoop : List (List Char) → List Char → List (List Char)
  | [], _ => []
  | seg :: rest, current =>
    let current := current ++ seg
    let emit :=
      (match (pyStrip seg).getLast? with
       | some c => c = '.' || c = '!' || c = '?'
       | none => false) ||
      decide (50 ≤ current.length) || decide (rest = [])
    if emit then current :: sonarChunkLoop rest current else sonarChunkLoop rest current

/-- The cumulative chunk payloads streamed for a response text. -/
def sonarChunkData (text : List Char) : List (List Char) :=
  sonarChunkLoop (splitSentAux text.length [] text) []

/-- `SonarAgent.generate_streaming_response` (lines 322-391).  The outcome of
the inner `generate_response` call is a parameter: `.ok` yields `start`,
chunks, `end`; an exception (`.error e`) is caught before any event was
yielded and produces the single `error` event whose user-facing `data`
embeds `str(e)`. -/
def sonar_generate_streaming_response (outcome : Except String (String × GenMeta)) :
    List StreamEvent :=
  match outcome with
  | .error e =>
    [{ type := "error", data := "Error generating response: " ++ e, done := true
       meta := { err := some e } }]
  | .ok (text, _) =>
    { type := "start", data := "", done := false } ::
    ((sonarChunkData text.data).map fun c =>
      { type := "chunk", data := String.mk c, done := false }) ++
    [{ type := "end", data := text, done := true }]

/-!
## The healthcare gates and the LangGraph streaming pipeline
(langgraph_setup.py, optimized_streaming_service.py)
-/

/-- The allow keywords of `_is_healthcare_related` (langgraph_setup.py
lines 325-350). -/
def healthcareKeywords : List String :=
  ["health", "medical", "medicine", "doctor", "physician", "nurse", "hospital", "clinic",
   "patient", "treatment", "therapy", "diagnosis", "symptom", "disease", "illness", "condition",
   "prescription", "medication", "drug", "pill", "tablet", "injection", "vaccine",
   "heart", "lung", "brain", "stomach", "liver", "kidney", "blood", "bone", "muscle",
   "skin", "eye", "ear", "nose", "throat", "chest", "back", "head", "neck", "arm", "leg",
   "pain", "ache", "fever", "cough", "cold", "flu", "headache", "nausea", "vomiting",
   "diarrhea", "constipation", "fatigue", "tired", "dizzy", "swelling", "rash", "infection",
   "surgery", "operation", "scan", "x-ray", "mri", "ct", "ultrasound", "blood test",
   "checkup", "examination", "biopsy", "endoscopy",
   "cardiology", "neurology", "dermatology", "oncology", "psychiatry", "pediatrics",
   "gynecology", "orthopedics", "ophthalmology", "radiology", "pathology",
   "hurt", "sick", "unwell", "feel", "feeling", "what should i do", "is it normal",
   "how to treat", "side effects", "allergic", "emergency", "urgent"]

/-- The deny keywords of `_is_healthcare_related` (lines 359-383). -/
def nonMedicalKeywords : List String :=
  ["programming", "coding", "software", "computer", "website", "app", "algorithm",
   "database", "api", "javascript", "python", "java", "html", "css",
   "movie", "film", "music", "song", "game", "gaming", "video", "youtube", "netflix",
   "spotify", "entertainment", "celebrity", "actor", "actress",
   "football", "soccer", "basketball", "baseball", "tennis", "golf", "swimming",
   "running", "gym", "workout", "exercise", "sports", "team", "player",
   "business", "money", "finance", "investment", "stock", "trading", "marketing",
   "sales", "profit", "revenue", "company", "startup", "entrepreneur",
   "math", "mathematics", "physics", "chemistry", "history", "geography", "literature",
   "language", "spanish", "french", "english", "homework", "assignment",
   "weather", "travel", "food", "cooking", "recipe", "restaurant", "politics",
   "government", "news", "current events", "philosophy", "religion"]

/-- `_is_healthcare_related` (langgraph_setup.py lines 313-412): keyword
allow, then keyword deny, then an LLM yes/no judgment; a failing judgment
call allows (fail open). -/
def is_healthcare_related (query : String) (llm : Except String String) : Bool :=
  let ql := pyLower query.data
  if healthcareKeywords.any (fun k => listHasSub k.data ql) then true
  else if nonMedicalKeywords.any (fun k => listHasSub k.data ql) then false
  else
    match llm with
    | .ok resp => listStartsWith "YES".data (pyUpper (pyStrip resp.data))
    | .error _ => true

/-- The fixed rejection text for non-medical queries (langgraph_setup.py
line 142, identical at line 80 and optimized_streaming_service.py line 516). -/
def rejectionText : String :=
  "I\x27m a medical advice chatbot specialized in healthcare and medical topics. I can only help you with health-related questions, symptoms, treatments, medical procedures, finding doctors or hospitals, and other medical concerns.\n\nPlease ask me something related to health or medicine, and I\x27ll be happy to help you!"

/-- A run of the pipeline: its emitted events and which downstream
components it invoked, in order. -/
structure LangRun where
  events : List StreamEvent
  invoked : List String
deriving DecidableEq, Repr

/-- The body of the relay loop of `process_with_langgraph_streaming`
(langgraph_setup.py lines 195-233): `start`, `chunk` and `end` events of the
inner agent stream are forwarded (the `end` relay builds the final bot
message); there is no branch for `error` events, which are dropped. -/
def langgraphRelayStep (sessionId userId opIntent : String) (ch : StreamEvent) :
    Option StreamEvent :=
  if ch.type == "start" then
    some { type := "start", data := "", done := false
           meta := { ch.meta with intent := some opIntent } }
  else if ch.type == "chunk" then
    some { type := "chunk", data := ch.data, done := false }
  else if ch.type == "end" then
    some { type := "end", data := ch.data, done := true
           message := some { text := ch.data, sender := "bot", sessionId := sessionId
                             userId := userId, intent := some opIntent, rejected := false } }
  else none

/-- `process_with_langgraph_streaming` (langgraph_setup.py lines 99-295).
External effects are parameters: `gateLLM` is the judgment call inside the
gate, `opIntent` the intent returned by `ActionOperatorAgent.process`
(which never raises), `sonarOutcome` the outcome of the response agent's
inner `generate_response` call.  Every response agent inherits
`BaseActionAgent.generate_streaming_response`, which relays
`SonarAgent.generate_streaming_response` verbatim, so the inner stream is
exactly the sonar stream. -/
def process_with_langgraph_streaming (query sessionId userId : String)
    (gateLLM : Except String String) (opIntent : String)
    (sonarOutcome : Except String (String × GenMeta)) : LangRun :=
  let statusV : StreamEvent := { type := "status", data := "Validating your question...", done := false }
  if !is_healthcare_related query gateLLM then
    { events := [statusV,
        { type := "start", data := "", done := false
          meta := { rejected := true, intent := some "non_medical_query" } },
        { type := "end", data := rejectionText, done := true
          message := some { text := rejectionText, sender := "bot", sessionId := sessionId
                            userId := userId, intent := some "non_medical_query"
                            rejected := true } }]
      invoked := [] }
  else
    let statusA : StreamEvent := { type := "status", data := "Analyzing your question...", done := false }
    let statusG : StreamEvent := { type := "status", data := "Generating response...", done := false }
    let inner := sonar_generate_streaming_response sonarOutcome
    let relayed := inner.filterMap (langgraphRelayStep sessionId userId opIntent)
    { events := statusV :: statusA :: statusG :: relayed
      invoked := ["ActionOperatorAgent.process", "response_agent.generate_streaming_response"] }

/-- The medical keyword set of `OptimizedStreamingService._quick_healthcare_check`
(optimized_streaming_service.py lines 175-181). -/
def quickMedicalKeywords : List String :=
  ["health", "medical", "doctor", "hospital", "clinic", "medicine", "medication",
   "symptoms", "treatment", "diagnosis", "therapy", "pain", "illness", "disease",
   "condition", "surgery", "prescription", "nurse", "physician", "specialist",
   "emergency", "urgent", "fever", "headache", "cough", "injury", "wound",
   "infection", "virus", "bacteria", "cancer", "diabetes", "heart", "blood"]

/-- The medical regex patterns of `_quick_healthcare_check` (lines 191-198). -/
def quickMedicalPatterns : List Re :=
  [seqL [.wb, rs "feel", .opt (rs "ing"), wsP, altL [rs "sick", rs "ill", rs "unwell", rs "bad"], .wb],
   seqL [.wb, rs "hurt", .opt (altL [rs "s", rs "ing"]), .wb],
   seqL [.wb, rs "pain", .wb],
   seqL [.wb, rs "ache", .wb],
   seqL [.wb, rs "symptom", .wb],
   seqL [.wb, rs "what", wsP, altL [rs "is", seqL [rs "could", wsP, rs "be"]], wsP,
     altL [rs "wrong", rs "causing"], .wb]]

/-- `OptimizedStreamingService._quick_healthcare_check` (lines 173-206):
keyword hit allows, pattern hit allows, and the default is also allow. -/
def quick_healthcare_check (text : String) : Bool :=
  let tl := pyLower text.data
  if quickMedicalKeywords.any (fun k => listHasSub k.data tl) then true
  else if quickMedicalPatterns.any (fun r => reSearch r tl) then true
  else true

/-!
## Error-path user-facing texts (C7)
-/

/-- The `error` event of the `except` handler of
`process_with_langgraph_streaming` (langgraph_setup.py lines 288-295). -/
def langgraphExceptErrorEvent (e : String) : StreamEvent :=
  { type := "error"
    data := "I\x27m sorry, I encountered an error while processing your request. Please try again."
    done := true, meta := { err := some e } }

/-- The `error` event of `process_message_optimized`
(optimized_streaming_service.py lines 147-159). -/
def optimizedErrorEvent (e : String) : StreamEvent :=
  { type := "error"
    data := "I\x27m experiencing technical difficulties. Please try again in a moment."
    done := true, meta := { err := some e } }

/-- The `error` event of `_stream_from_perplexity` (lines 427-434). -/
def streamFromPerplexityErrorEvent (e : String) : StreamEvent :=
  { type := "error"
    data := "I encountered an error while generating your response. Please try again."
    done := true, meta := { err := some e } }

/-- The `error` event of `process_message_streaming`
(streaming_chat_service.py lines 105-117). -/
def streamingServiceErrorEvent (e : String) : StreamEvent :=
  { type := "error"
    data := "I\x27m sorry, I encountered an error while processing your request. Please try again."
    done := true, meta := { err := some e } }

/-- The fallback error message text of the socket `message` handler
(main.py lines 343-355); the exception goes into `metadata.error` only. -/
def mainHandlerFallbackText : String :=
  "I\x27m sorry, I encountered an error while processing your request. Please try again in a moment."

/-- The user-facing `text` of the error message persisted and returned by the
REST `send_message` endpoint (chat.py lines 91-99): it embeds `str(e)`. -/
def sendMessageErrorText (e : String) : String :=
  "Sorry, there was an error processing your message: " ++ e

/-!
## The socket `message` handler and its duplicate-submission guard
(main.py lines 77-100 and 164-355)
-/

/-- Stable insert for an ascending insertion sort by an integer key. -/
def insBy (f : α → Int) (x : α) : List α → List α
  | [] => [x]
  | y :: ys => if f x ≤ f y then x :: y :: ys else y :: insBy f x ys

/-- Stable ascending sort by an integer key (Python `sorted(..., key=...)`). -/
def sortIntBy (f : α → Int) : List α → List α
  | [] => []
  | x :: xs => insBy f x (sortIntBy f xs)

/-- One entry of the `recent_messages` dedup cache: the key
`f"{user_id}:{session_id}:{message_text}"` with its stored timestamp and the
submitting socket id. -/
structure DedupEntry where
  key : List Char
  ts : Int
  sid : String
deriving DecidableEq, Repr

/-- The dedup key (main.py line 184). -/
def msgKey (userId sessionId text : List Char) : List Char :=
  userId ++ ':' :: sessionId ++ ':' :: text

/-- `cleanup_message_cache` (main.py lines 83-100): drop entries older than
`MAX_AGE_SECONDS = 300`, then, if more than `MAX_CACHE_SIZE = 1000` remain,
drop the oldest surplus (ascending timestamp order). -/
def dedupCleanup (now : Int) (cache : List DedupEntry) : List DedupEntry :=
  let fresh := cache.filter fun e => !(300 < now - e.ts)
  if 1000 < fresh.length then
    let removeKeys := ((sortIntBy (·.ts) fresh).take (fresh.length - 1000)).map (·.key)
    fresh.filter fun e => !(removeKeys.contains e.key)
  else fresh

/-- The externally visible actions of one run of the socket `message`
handler that the dedup claim is about. -/
inductive HandlerAction where
  | persistUserMessage (text : String)
  | emitUserMessage (text : String)
  | processQuery (text : String)
deriving DecidableEq, Repr

/-- The socket `message` handler (main.py lines 164-231) up to the handoff to
`process_message_streaming`: empty text is ignored; a submission whose dedup
key is already present is dropped with no further action; otherwise the
entry is stored (triggering an occasional cache sweep), the user message is
persisted and emitted, and processing of the query starts (which is what
later persists the single bot message). -/
def socket_message_handler (cache : List DedupEntry) (now : Int)
    (sockSid userId sessionId rawText : String) : List HandlerAction × List DedupEntry :=
  let text := pyStrip rawText.data
  if text = [] then ([], cache)
  else
    let key := msgKey userId.data sessionId.data text
    if (cache.find? fun e => e.key == key).isSome then ([], cache)
    else
      let cache1 := cache ++ [⟨key, now, sockSid⟩]
      let cache2 := if cache1.length % 10 = 0 then dedupCleanup now cache1 else cache1
      ([HandlerAction.persistUserMessage (String.mk text),
        HandlerAction.emitUserMessage (String.mk text),
        HandlerAction.processQuery (String.mk text)], cache2)

/-!
## Conversation history retrieval (chat_service.py, streaming_chat_service.py)
-/

/-- A stored session (only the owner is relevant to the claims). -/
structure Session where
  userId : String
deriving DecidableEq, Repr

/-- A stored conversation message. -/
structure StoredMsg where
  text : String
  sender : String
  ts : Int
deriving DecidableEq, Repr

/-- The document store (the Firebase collaborator) as data. -/
structure Store where
  sessions : List (String × Session)
  messages : List (String × List StoredMsg)
deriving Repr

/-- `firebase_service.get_session`. -/
def store_get_session (st : Store) (sid : String) : Option Session :=
  (st.sessions.find? fun e => e.1 == sid).map (·.2)

/-- `firebase_service.get_messages`. -/
def store_get_messages (st : Store) (sid : String) : List StoredMsg :=
  ((st.messages.find? fun e => e.1 == sid).map (·.2)).getD []

/-- `chat_service.get_session_messages` (chat_service.py lines 40-62):
missing session or foreign owner yields the empty list. -/
def get_session_messages (st : Store) (sid uid : String) : List StoredMsg :=
  match store_get_session st sid with
  | none => []
  | some sess => if sess.userId != uid then [] else store_get_messages st sid

/-- `chat_service.process_message` (chat_service.py lines 13-38): the history
handed to `process_with_langgraph` is whatever `get_session_messages`
returned; the query is then processed unconditionally.  The pair returned
here is (history passed on, pipeline run). -/
def chat_service_process_message (st : Store) (text sid uid : String)
    (gateLLM : Except String String) (opIntent : String)
    (sonarOutcome : Except String (String × GenMeta)) : List StoredMsg × LangRun :=
  (get_session_messages st sid uid,
   process_with_langgraph_streaming text sid uid gateLLM opIntent sonarOutcome)

/-- Python `l[-limit:]` (with `l[-0:] = l`). -/
def pySliceLast (limit : Nat) (l : List α) : List α :=
  if limit = 0 then l else l.drop (l.length - limit)

/-- One entry of the module-level `session_cache`
(streaming_chat_service.py lines 21-23). -/
structure SessCacheEntry where
  key : String
  messages : List StoredMsg
  ts : Int
deriving DecidableEq, Repr

/-- `get_session_messages_optimized` (streaming_chat_service.py lines
171-255): fresh cache hit, else ownership check (missing session or foreign
owner yields `[]`), else the timestamp-sorted most recent `limit` messages.
`CACHE_EXPIRY_MINUTES = 10` is 600 seconds. -/
def get_session_messages_optimized (cache : List SessCacheEntry) (now : Int)
    (st : Store) (sid uid : String) (limit : Nat) : List StoredMsg :=
  let ck := sid ++ ":" ++ uid
  let fresh : Option (List StoredMsg) :=
    match cache.find? fun e => e.key == ck with
    | some e => if now - e.ts < 600 then some (pySliceLast limit e.messages) else none
    | none => none
  match fresh with
  | some msgs => msgs
  | none =>
    match store_get_session st sid with
    | none => []
    | some sess =>
      if sess.userId != uid then []
      else
        let allMsgs := store_get_messages st sid
        if allMsgs ≠ [] then
          let sorted := sortIntBy (·.ts) allMsgs
          if limit < sorted.length then pySliceLast limit sorted else sorted
        else []

/-!
# Theorems

## C4 — idempotence of the text-cleanup pass (corrected)
-/

/-- All characters of a string are lower-case ASCII letters. -/
def allLowerStr (s : List Char) : Prop := ∀ c ∈ s, isLowerAscii c = true

lemma lower_ge (c : Char) (h : isLowerAscii c = true) : 97 ≤ c.toNat := by
  simp only [isLowerAscii, Bool.and_eq_true, decide_eq_true_eq] at h
  exact h.1

lemma lower_ne (c : Char) (h : isLowerAscii c = true) (d : Char) (hd : d.toNat < 97) :
    c ≠ d := by
  intro he
  have h1 := lower_ge c h
  rw [he] at h1
  omega

lemma lower_not_pyspace (c : Char) (h : isLowerAscii c = true) : isPySpace c = false := by
  have := lower_ge c h
  simp only [isPySpace, Bool.or_eq_false_iff, decide_eq_false_iff_not]
  refine ⟨⟨⟨⟨⟨?_, ?_⟩, ?_⟩, ?_⟩, ?_⟩, ?_⟩ <;>
    exact lower_ne c h _ (by decide)

lemma lower_not_upper (c : Char) (h : isLowerAscii c = true) : isUpperAscii c = false := by
  simp only [isLowerAscii, Bool.and_eq_true, decide_eq_true_eq] at h
  simp only [isUpperAscii, Bool.and_eq_false_iff, decide_eq_false_iff_not]
  right
  intro hz
  have h1 : 97 ≤ c.toNat := h.1
  have h2 : c.toNat ≤ 90 := hz
  omega

lemma normParaAux_lower (fuel : Nat) (s : List Char) (h : allLowerStr s) :
    normParaAux fuel s = s := by
  induction fuel generalizing s with
  | zero => cases s <;> rfl
  | succ n ih =>
    cases s with
    | nil => rfl
    | cons c rest =>
      have hc := h c (List.mem_cons_self ..)
      have hrest : allLowerStr rest := fun d hd => h d (List.mem_cons_of_mem _ hd)
      simp [normParaAux, lower_ne c hc '\n' (by decide), ih rest hrest]

lemma wordJoin_lower (s : List Char) (h : allLowerStr s) : wordJoin s = s := by
  induction s using wordJoin.induct with
  | case1 a b c rest hcond ih =>
    have hb := h b (by simp)
    rw [Bool.and_eq_true, Bool.and_eq_true] at hcond
    exact absurd hcond.1.2 (by simp [lower_not_upper b hb])
  | case2 a b c rest hcond ih =>
    have h2 : wordJoin (b :: c :: rest) = b :: c :: rest :=
      ih fun d hd => h d (List.mem_cons_of_mem _ hd)
    simp only [wordJoin, if_neg hcond, h2]
  | case3 s hs =>
    cases s with
    | nil => rfl
    | cons a t =>
      cases t with
      | nil => rfl
      | cons b u =>
        cases u with
        | nil => rfl
        | cons c v => exact absurd rfl (hs a b c v)

lemma collapseSpaces_lower (s : List Char) (h : allLowerStr s) : collapseSpaces s = s := by
  induction s using collapseSpaces.induct with
  | case1 => rfl
  | case2 c => rfl
  | case3 a b rest hcond ih =>
    have ha := h a (by simp)
    rw [Bool.and_eq_true] at hcond
    exact absurd (by simpa using hcond.1) (lower_ne a ha ' ' (by decide))
  | case4 a b rest hcond ih =>
    have h2 : collapseSpaces (b :: rest) = b :: rest :=
      ih fun d hd => h d (List.mem_cons_of_mem _ hd)
    simp only [collapseSpaces, if_neg hcond, h2]

lemma nlSpacesAux_lower (fuel : Nat) (s : List Char) (h : allLowerStr s) :
    nlSpacesAux fuel s = s := by
  induction fuel generalizing s with
  | zero => cases s <;> rfl
  | succ n ih =>
    cases s with
    | nil => rfl
    | cons c rest =>
      have hc := h c (List.mem_cons_self ..)
      have hrest : allLowerStr rest := fun d hd => h d (List.mem_cons_of_mem _ hd)
      simp [nlSpacesAux, lower_ne c hc '\n' (by decide), ih rest hrest]

lemma headerContent_lower (c : Char) (rest : List Char) (h : isLowerAscii c = true) :
    headerContent (c :: rest) = none := by
  simp [headerContent, lower_not_upper c h]

lemma headerBoldAux_lower (fuel : Nat) (b : Bool) (s : List Char) (h : allLowerStr s) :
    headerBoldAux fuel b s = s := by
  induction fuel generalizing b s with
  | zero => cases b <;> cases s <;> rfl
  | succ n ih =>
    cases s with
    | nil => cases b <;> rfl
    | cons c rest =>
      have hc := h c (List.mem_cons_self ..)
      have hrest : allLowerStr rest := fun d hd => h d (List.mem_cons_of_mem _ hd)
      have hnl : ¬(c = '\n') := lower_ne c hc '\n' (by decide)
      cases b with
      | false => simp [headerBoldAux, hnl, ih false rest hrest]
      | true => simp [headerBoldAux, hnl, headerContent_lower c rest hc, ih false rest hrest]

lemma boldCount_lower (s : List Char) (h : allLowerStr s) : boldCount s = 0 := by
  induction s using boldCount.induct with
  | case1 rest ih => exact absurd (h '*' (by simp)) (by decide)
  | case2 c rest hne ih =>
    simpa [boldCount] using ih fun d hd => h d (List.mem_cons_of_mem _ hd)
  | case3 => rfl

lemma boldClose_lower (s : List Char) (h : allLowerStr s) : boldClose s = s := by
  simp [boldClose, boldCount_lower s h]

lemma countSingleStar_lower (p : Option Char) (s : List Char) (h : allLowerStr s) :
    countSingleStar p s = 0 := by
  induction s generalizing p with
  | nil => rfl
  | cons c rest ih =>
    have hc := h c (List.mem_cons_self ..)
    have hne : ¬(c = '*') := lower_ne c hc '*' (by decide)
    simp [countSingleStar, hne, ih (some c) fun d hd => h d (List.mem_cons_of_mem _ hd)]

lemma italClose_lower (s : List Char) (h : allLowerStr s) : italClose s = s := by
  simp [italClose, countSingleStar_lower none s h]

lemma dropWhile_not_pyspace (s : List Char) (h : allLowerStr s) :
    s.dropWhile isPySpace = s := by
  cases s with
  | nil => rfl
  | cons c rest =>
    simp [List.dropWhile, lower_not_pyspace c (h c (List.mem_cons_self ..))]

lemma pyStrip_lower (s : List Char) (h : allLowerStr s) : pyStrip s = s := by
  have h2 : allLowerStr s.reverse := fun c hc => h c (List.mem_reverse.mp hc)
  simp [pyStrip, dropWhile_not_pyspace s h, dropWhile_not_pyspace s.reverse h2]

lemma clean_lower (s : List Char) (h : allLowerStr s) :
    clean_response_formatting s = s := by
  unfold clean_response_formatting normPara nlSpaces headerBold
  rw [normParaAux_lower _ s h, wordJoin_lower s h, collapseSpaces_lower s h,
    nlSpacesAux_lower _ s h, headerBoldAux_lower _ _ s h, boldClose_lower s h,
    italClose_lower s h, pyStrip_lower s h]

/-- C4 (counterexample). The claim "clean(clean(s)) = clean(s) for every s"
is false: on `"aBcDe"` the word-join substitution
`re.sub(r'([a-z])([A-Z][a-z])', r'\1 \2', ...)` consumes three characters
per match and resumes after them, so the first pass yields `"a BcDe"` and
only the second pass separates the remaining `cDe`, yielding `"a Bc De"`. -/
theorem cleanup_not_idempotent_counterexample :
    clean_response_formatting (clean_response_formatting "aBcDe".data) ≠
      clean_response_formatting "aBcDe".data := by decide

/-- C4 (amended). The cleanup pass is not idempotent in general (see the
counterexample); it is idempotent on inputs it fixes, for instance any text
consisting only of lower-case ASCII letters, on which every pass is the
identity. -/
theorem cleanup_idempotent_on_lowercase (s : List Char) (h : allLowerStr s) :
    clean_response_formatting s = s ∧
      clean_response_formatting (clean_response_formatting s) =
        clean_response_formatting s := by
  have h1 := clean_lower s h
  exact ⟨h1, by rw [h1]; exact h1⟩

/-- C4 (witness for the amended theorem at the concrete input `"abc"`). -/
theorem cleanup_idempotent_on_lowercase_witness :
    clean_response_formatting (clean_response_formatting "abc".data) =
      clean_response_formatting "abc".data :=
  (cleanup_idempotent_on_lowercase "abc".data (by unfold allLowerStr; decide)).2

/-!
## C3 — sources section present iff at least one URL (confirmed)
-/

lemma extract_sources_nil_iff (cits : List String) (n : Nat) :
    ((List.enumFrom n cits).filterMap fun p =>
      if isHttpUrl p.2 then
        some (('[' :: (Nat.repr (p.1 + 1)).data ++ "] ".data) ++ format_url_as_link p.2.data)
      else none) = [] ↔ cits.filter isHttpUrl = [] := by
  induction cits generalizing n with
  | nil => simp
  | cons c cs ih =>
    simp only [List.enumFrom, List.filterMap_cons, List.filter_cons]
    by_cases hc : isHttpUrl c = true
    · simp [hc]
    · simp only [Bool.not_eq_true] at hc
      simp only [hc, Bool.false_eq_true, if_false]
      exact ih (n + 1)

lemma sourcesSectionOf_ne_nil (sources : List (List Char)) :
    sourcesSectionOf sources ≠ [] := by
  unfold sourcesSectionOf
  simp

/-- C3. A "Verified Sources and References" section is returned by
`_extract_and_format_sources` exactly when at least one citation is an
actual URL; the returned `source_urls` are exactly the `http(s)://`
citations; and in the API path of `generate_response` (where PerplexiPy
yields no citations object) `has_sources` and `grounded` equal
`len(source_urls) > 0` and the section is appended to the cleaned text
exactly when a URL is present. -/
theorem sources_section_iff_urls :
    (∀ cits : List String,
      ((extract_and_format_sources (some cits)).1 ≠ [] ↔
        (extract_and_format_sources (some cits)).2 ≠ []) ∧
      (extract_and_format_sources (some cits)).2 = cits.filter isHttpUrl) ∧
    extract_and_format_sources none = ([], []) ∧
    (∀ llmText : String,
      (generate_response_api llmText).2.has_sources =
        decide (0 < (generate_response_api llmText).2.sources.length) ∧
      (generate_response_api llmText).2.grounded =
        decide (0 < (generate_response_api llmText).2.sources.length) ∧
      ((generate_response_api llmText).1.data ≠ clean_response_formatting llmText.data ↔
        (generate_response_api llmText).2.sources ≠ [])) := by
  refine ⟨fun cits => ?_, rfl, fun llmText => ?_⟩
  · unfold extract_and_format_sources
    simp only [List.enum]
    by_cases hs : cits.filter isHttpUrl = []
    · have h0 : ((List.enumFrom 0 cits).filterMap fun p =>
          if isHttpUrl p.2 then
            some (('[' :: (Nat.repr (p.1 + 1)).data ++ "] ".data) ++
              format_url_as_link p.2.data)
          else none) = [] := (extract_sources_nil_iff cits 0).mpr hs
      rw [if_neg fun hcon => hcon.1 h0]
      simp [hs]
    · have h0 : ¬(((List.enumFrom 0 cits).filterMap fun p =>
          if isHttpUrl p.2 then
            some (('[' :: (Nat.repr (p.1 + 1)).data ++ "] ".data) ++
              format_url_as_link p.2.data)
          else none) = []) := fun h => hs ((extract_sources_nil_iff cits 0).mp h)
      have hlen : 0 < (cits.filter isHttpUrl).length := List.length_pos.mpr hs
      rw [if_pos ⟨h0, hlen⟩]
      simp [hs, sourcesSectionOf_ne_nil]
  · unfold generate_response_api extract_and_format_sources
    simp

/-!
## C5 — expired classification-cache entries are never served (confirmed)
-/

/-- C5. In `ActionOperatorAgent.process`, a cache entry whose stored
timestamp is older than the one-hour TTL is never served: the result is not
the cached-path result even though the entry is still physically present. -/
theorem classification_cache_ttl (cache : List OpCacheEntry) (now : Int) (query : String)
    (llm : Except String String) (intent : String) (ts : Int)
    (hfound : opCacheLookup cache (op_get_cache_key query) = some (intent, ts))
    (hstale : 3600 < now - ts) :
    (operator_process cache now query llm).cached = false ∧
    (operator_process cache now query llm).method ≠ "cache" := by
  have hlt : ¬(now - ts < 3600) := by omega
  unfold operator_process
  simp only [hfound]
  rw [if_neg hlt]
  cases hdet : detect_intent_by_keywords query with
  | some i => simp [hdet]
  | none =>
    cases llm with
    | ok resp => simp only [hdet]; exact ⟨trivial, by decide⟩
    | error e => simp [hdet]

/-- C5 (witness): a concrete stale entry (stored at time 0, looked up at
time 4000 with a one-hour TTL) is not served. -/
theorem classification_cache_ttl_witness :
    (operator_process [⟨"q".data, "greeting", 0⟩] 4000 "q" (.error "x")).cached = false ∧
    (operator_process [⟨"q".data, "greeting", 0⟩] 4000 "q" (.error "x")).method ≠ "cache" :=
  classification_cache_ttl [⟨"q".data, "greeting", 0⟩] 4000 "q" (.error "x") "greeting" 0
    (by decide) (by decide)

/-!
## C2 — the classifier always returns a member of the intent enumeration
(confirmed)
-/

lemma detect_mem (q : String) (i : String) (h : detect_intent_by_keywords q = some i) :
    i ∈ specIntentEnum := by
  simp only [detect_intent_by_keywords] at h
  repeat' split at h
  all_goals first | (cases h; decide) | cases h

lemma INTENTS_sub_enum (x : String) (hx : INTENTS.contains x = true) : x ∈ specIntentEnum := by
  have hm : x ∈ INTENTS := by simpa using hx
  rw [INTENTS] at hm
  fin_cases hm <;> decide

lemma opProcess_tail_mem (q : String) (llm : Except String String) :
    (match detect_intent_by_keywords q with
      | some intent => ({ intent := intent, method := "keyword_detection", cached := false } : OpResult)
      | none =>
        match llm with
        | .ok resp =>
          let intent := String.mk (pyLower (pyStrip resp.data))
          let intent := if INTENTS.contains intent then intent else "symptom_inquiry"
          ({ intent := intent, method := "llm_detection", cached := false } : OpResult)
        | .error _ =>
          ({ intent := "symptom_inquiry", method := "fallback", cached := false } : OpResult)).intent
      ∈ specIntentEnum := by
  cases hdet : detect_intent_by_keywords q with
  | some i2 => exact detect_mem q i2 hdet
  | none =>
    cases llm with
    | ok resp =>
      show (if INTENTS.contains (String.mk (pyLower (pyStrip resp.data))) = true
          then String.mk (pyLower (pyStrip resp.data)) else "symptom_inquiry") ∈ specIntentEnum
      by_cases hcon : INTENTS.contains (String.mk (pyLower (pyStrip resp.data))) = true
      · rw [if_pos hcon]
        exact INTENTS_sub_enum _ hcon
      · rw [if_neg hcon]
        decide
    | error e => exact (by decide : ("symptom_inquiry" : String) ∈ specIntentEnum)

lemma opProcess_fresh_mem (q : String) (llm : Except String String) (now : Int)
    (cache : List OpCacheEntry) (hc : ∀ e ∈ cache, e.intent ∈ specIntentEnum) :
    (operator_process cache now q llm).intent ∈ specIntentEnum := by
  unfold operator_process
  cases hlook : opCacheLookup cache (op_get_cache_key q) with
  | some pr =>
    obtain ⟨i, ts⟩ := pr
    have hmem : i ∈ specIntentEnum := by
      unfold opCacheLookup at hlook
      cases hfind : cache.find? fun e => e.key == op_get_cache_key q with
      | none => rw [hfind] at hlook; cases hlook
      | some e =>
        rw [hfind] at hlook
        have he : e ∈ cache := List.mem_of_find?_eq_some hfind
        have h2 : e.intent = i := by
          simpa using congrArg (·.map Prod.fst) hlook
        exact h2 ▸ hc e he
    simp only [hlook]
    by_cases hfr : now - ts < 3600
    · rw [if_pos hfr]
      exact hmem
    · rw [if_neg hfr]
      exact opProcess_tail_mem q llm
  | none =>
    simp only [hlook]
    exact opProcess_tail_mem q llm

lemma foldlMax_mem (x : String × Frac) (xs : List (String × Frac)) :
    xs.foldl (fun acc y => if flt acc.2 y.2 then y else acc) x ∈ x :: xs := by
  induction xs generalizing x with
  | nil => simp
  | cons y ys ih =>
    simp only [List.foldl_cons]
    by_cases hf : flt x.2 y.2 = true
    · have h2 := ih y
      simp only [hf, if_true]
      exact List.mem_cons_of_mem x h2
    · have h2 := ih x
      rw [if_neg hf]
      rcases List.mem_cons.mp h2 with h3 | h3
      · rw [h3]; exact List.mem_cons_self ..
      · exact List.mem_cons_of_mem _ (List.mem_cons_of_mem _ h3)

lemma intentPatterns_intent_mem (p : IntentPattern) (hp : p ∈ intentPatterns) :
    p.intent ∈ specIntentEnum := by
  fin_cases hp <;> decide

lemma foldlMax_mem_of_firstMax (l : List (String × Frac)) (w : String × Frac)
    (h : firstMax l = some w) : w ∈ l := by
  unfold firstMax at h
  cases l with
  | nil => cases h
  | cons x xs =>
    have h2 : xs.foldl (fun acc y => if flt acc.2 y.2 then y else acc) x = w :=
      Option.some.inj h
    exact h2 ▸ foldlMax_mem x xs

lemma classify_mem (fcache : List (List Char × String)) (q : String) (hist : List HistMsg)
    (hc : ∀ e ∈ fcache, e.2 ∈ specIntentEnum) :
    (classify_intent fcache q hist).1 ∈ specIntentEnum := by
  unfold classify_intent
  cases hlook : lookupA fcache (pyStrip (pyLower q.data)) with
  | some i =>
    have hi : i ∈ specIntentEnum := by
      unfold lookupA at hlook
      cases hfind : fcache.find? fun e => e.1 == pyStrip (pyLower q.data) with
      | none => rw [hfind] at hlook; cases hlook
      | some e =>
        rw [hfind] at hlook
        have he : e ∈ fcache := List.mem_of_find?_eq_some hfind
        have h2 : e.2 = i := by simpa using hlook
        exact h2 ▸ hc e he
    simp only [hlook]
    exact hi
  | none =>
    simp only [hlook]
    cases hfm : firstMax (intentPatterns.map fun p =>
        (p.intent, scoreIntent p (pyStrip (pyLower q.data)) hist)) with
    | none => exact (by decide : ("symptom_inquiry" : String) ∈ specIntentEnum)
    | some pr =>
      obtain ⟨best, bs⟩ := pr
      have hmem : (best, bs) ∈ intentPatterns.map fun p =>
          (p.intent, scoreIntent p (pyStrip (pyLower q.data)) hist) :=
        foldlMax_mem_of_firstMax _ _ hfm
      obtain ⟨p, hp, hpe⟩ := List.mem_map.mp hmem
      have hbest : best ∈ specIntentEnum := by
        have h3 : p.intent = best := congrArg Prod.fst hpe
        exact h3 ▸ intentPatterns_intent_mem p hp
      show (if fle (fofNat 10) bs = true then best else "symptom_inquiry") ∈ specIntentEnum
      split
      · exact hbest
      · exact (by decide : ("symptom_inquiry" : String) ∈ specIntentEnum)

/-- C2. Intent classification always lands in the spec's closed intent
enumeration: `ActionOperatorAgent.process` returns an enumeration member for
every cache state whose entries are members, every keyword/LLM outcome and
every failure; an out-of-set LLM label (after strip+lower) is coerced to the
safe default `symptom_inquiry`; and `FastIntentClassifier.classify_intent`
likewise always returns an enumeration member. -/
theorem classifier_enum_and_coercion :
    (∀ (cache : List OpCacheEntry) (now : Int) (q : String) (llm : Except String String),
      (∀ e ∈ cache, e.intent ∈ specIntentEnum) →
      (operator_process cache now q llm).intent ∈ specIntentEnum) ∧
    (∀ (cache : List OpCacheEntry) (now : Int) (q : String) (resp : String),
      opCacheLookup cache (op_get_cache_key q) = none →
      detect_intent_by_keywords q = none →
      INTENTS.contains (String.mk (pyLower (pyStrip resp.data))) = false →
      (operator_process cache now q (.ok resp)).intent = "symptom_inquiry") ∧
    (∀ (fcache : List (List Char × String)) (q : String) (hist : List HistMsg),
      (∀ e ∈ fcache, e.2 ∈ specIntentEnum) →
      (classify_intent fcache q hist).1 ∈ specIntentEnum) := by
  refine ⟨fun cache now q llm hc => opProcess_fresh_mem q llm now cache hc,
    fun cache now q resp hmiss hdet hout => ?_, classify_mem⟩
  unfold operator_process
  simp only [hmiss, hdet]
  show (if INTENTS.contains (String.mk (pyLower (pyStrip resp.data))) = true
      then String.mk (pyLower (pyStrip resp.data)) else "symptom_inquiry") = "symptom_inquiry"
  rw [if_neg (by rw [hout]; decide)]

/-- C2 (witness): at a concrete empty cache, unmatched query and out-of-set
LLM label `"pizza"`, the result is the safe default, and membership holds. -/
theorem classifier_enum_and_coercion_witness :
    (operator_process [] 0 "zzz qqq" (.ok "pizza")).intent = "symptom_inquiry" ∧
    (operator_process [] 0 "zzz qqq" (.ok "pizza")).intent ∈ specIntentEnum ∧
    (classify_intent [] "zzz qqq" []).1 ∈ specIntentEnum := by
  refine ⟨classifier_enum_and_coercion.2.1 [] 0 "zzz qqq" "pizza" (by decide) (by decide)
    (by decide), classifier_enum_and_coercion.1 [] 0 "zzz qqq" (.ok "pizza") (by simp),
    classifier_enum_and_coercion.2.2 [] "zzz qqq" [] (by simp)⟩

/-!
## C8 — tie-break order of the classifier (corrected)
-/

/-- The rational value of a fraction (meaningful when the denominator is
positive, which holds for every score the classifier builds). -/
def toRat (a : Frac) : ℚ := (a.num : ℚ) / (a.den : ℚ)

lemma flt_iff (a b : Frac) (ha : 0 < a.den) (hb : 0 < b.den) :
    flt a b = true ↔ toRat a < toRat b := by
  unfold flt toRat
  rw [div_lt_div_iff₀ (by exact_mod_cast ha) (by exact_mod_cast hb), decide_eq_true_eq]
  constructor <;> intro h <;> exact_mod_cast h

lemma scoreIntent_den_pos (p : IntentPattern) (nq : List Char) (hist : List HistMsg) :
    0 < (scoreIntent p nq hist).den := by
  unfold scoreIntent
  refine Nat.mul_pos (Nat.mul_pos ?_ ?_) ?_
  · split
    next h =>
      simp only [fmul, fdivNat, fofNat]
      simpa using Nat.lt_of_lt_of_le h (List.length_filter_le _ _)
    next => exact Nat.one_pos
  · split
    next h =>
      simp only [fmul, fdivNat, fofNat]
      simpa using Nat.lt_of_lt_of_le h (List.length_filter_le _ _)
    next => exact Nat.one_pos
  · split <;> (try split) <;> exact Nat.one_pos

lemma foldlMax_spec (xs : List (String × Frac)) :
    ∀ x : String × Frac, (∀ y ∈ x :: xs, 0 < y.2.den) →
    ∃ pre suf,
      x :: xs = pre ++ (xs.foldl (fun acc y => if flt acc.2 y.2 then y else acc) x) :: suf ∧
      (∀ y ∈ pre, toRat y.2 <
        toRat (xs.foldl (fun acc y => if flt acc.2 y.2 then y else acc) x).2) ∧
      (∀ y ∈ x :: xs, toRat y.2 ≤
        toRat (xs.foldl (fun acc y => if flt acc.2 y.2 then y else acc) x).2) := by
  induction xs with
  | nil =>
    intro x _
    exact ⟨[], [], rfl, by simp, by simp⟩
  | cons y ys ih =>
    intro x hpos
    have hx : 0 < x.2.den := hpos x (List.mem_cons_self ..)
    have hy : 0 < y.2.den := hpos y (List.mem_cons_of_mem _ (List.mem_cons_self ..))
    rw [List.foldl_cons]
    by_cases hf : flt x.2 y.2 = true
    · rw [if_pos hf]
      have hxy : toRat x.2 < toRat y.2 := (flt_iff _ _ hx hy).mp hf
      obtain ⟨pre', suf', hdec, hlt, hle⟩ :=
        ih y fun z hz => hpos z (List.mem_cons_of_mem x hz)
      refine ⟨x :: pre', suf',
        by rw [List.cons_append]; exact congrArg (x :: ·) hdec, ?_, ?_⟩
      · intro z hz
        rcases List.mem_cons.mp hz with rfl | hz2
        · exact hxy.trans_le (hle y (List.mem_cons_self ..))
        · exact hlt z hz2
      · intro z hz
        rcases List.mem_cons.mp hz with rfl | hz2
        · exact (hxy.trans_le (hle y (List.mem_cons_self ..))).le
        · exact hle z hz2
    · rw [if_neg hf]
      have hyx : toRat y.2 ≤ toRat x.2 :=
        le_of_not_lt fun hc => hf ((flt_iff _ _ hx hy).mpr hc)
      obtain ⟨pre', suf', hdec, hlt, hle⟩ := ih x fun z hz => by
        rcases List.mem_cons.mp hz with rfl | hz2
        · exact hx
        · exact hpos z (List.mem_cons_of_mem _ (List.mem_cons_of_mem _ hz2))
      cases pre' with
      | nil =>
        rw [List.nil_append] at hdec
        have hw : ys.foldl (fun acc y => if flt acc.2 y.2 then y else acc) x = x :=
          (List.cons.inj hdec).1.symm
        refine ⟨[], y :: ys, by rw [List.nil_append, hw], by simp, ?_⟩
        intro z hz
        rw [hw]
        rcases List.mem_cons.mp hz with rfl | hz2
        · exact le_refl _
        · rcases List.mem_cons.mp hz2 with rfl | hz3
          · exact hyx
          · have h5 := hle z (List.mem_cons_of_mem _ hz3)
            rw [hw] at h5
            exact h5
      | cons p0 pre₂ =>
        rw [List.cons_append] at hdec
        obtain ⟨hp0, hys⟩ := List.cons.inj hdec
        have hxmem : x ∈ p0 :: pre₂ := by rw [← hp0]; exact List.mem_cons_self ..
        refine ⟨x :: y :: pre₂, suf',
          by rw [List.cons_append, List.cons_append, ← hys], ?_, ?_⟩
        · intro z hz
          have hxw : toRat x.2 <
              toRat (ys.foldl (fun acc y => if flt acc.2 y.2 then y else acc) x).2 :=
            hlt x hxmem
          rcases List.mem_cons.mp hz with rfl | hz2
          · exact hxw
          · rcases List.mem_cons.mp hz2 with rfl | hz3
            · exact hyx.trans_lt hxw
            · exact hlt z (List.mem_cons_of_mem _ hz3)
        · intro z hz
          have hxw : toRat x.2 ≤
              toRat (ys.foldl (fun acc y => if flt acc.2 y.2 then y else acc) x).2 :=
            hle x (List.mem_cons_self ..)
          rcases List.mem_cons.mp hz with rfl | hz2
          · exact hxw
          · rcases List.mem_cons.mp hz2 with rfl | hz3
            · exact hyx.trans hxw
            · exact hle z (List.mem_cons_of_mem _ hz3)

lemma firstMax_spec (l : List (String × Frac)) (hne : l ≠ [])
    (hpos : ∀ y ∈ l, 0 < y.2.den) :
    ∃ pre suf w, firstMax l = some w ∧ l = pre ++ w :: suf ∧
      (∀ y ∈ pre, toRat y.2 < toRat w.2) ∧ (∀ y ∈ l, toRat y.2 ≤ toRat w.2) := by
  cases l with
  | nil => exact absurd rfl hne
  | cons x xs =>
    obtain ⟨pre, suf, hdec, hlt, hle⟩ := foldlMax_spec xs x hpos
    exact ⟨pre, suf, _, rfl, hdec, hlt, hle⟩

/-- C8 (counterexample).  On the query
`"hospital clinic doctor physician research shows"` the scores tie at the
maximum 20.0 exactly for `hospital_search` (4 of 12 keywords, priority 6)
and `deep_medical_inquiry` (1 of 10 keywords plus the
`research\s+(shows|...)` pattern, priority 4); the claimed priority order
(greeting > deep-research > symptom > treatment > hospital > department)
requires `deep_medical_inquiry`, but the classifier returns
`hospital_search`, the tied intent that comes first in the pattern-list
order.  The float computation was traced in CPython and both scores are
exactly 20.0 there as well. -/
theorem tiebreak_counterexample :
    (classify_intent [] "hospital clinic doctor physician research shows" []).1 =
        "hospital_search" ∧
    (intentPatterns.map fun p =>
        (p.intent,
         feq (scoreIntent p
            (pyStrip (pyLower "hospital clinic doctor physician research shows".data)) [])
          (fofNat 20),
         fle (scoreIntent p
            (pyStrip (pyLower "hospital clinic doctor physician research shows".data)) [])
          (fofNat 20))) =
      [("greeting", false, true), ("symptom_inquiry", false, true),
       ("treatment_advice", false, true), ("hospital_search", true, true),
       ("department_inquiry", false, true), ("deep_medical_inquiry", true, true),
       ("unbiased_factual_request", false, true),
       ("comprehensive_health_assessment", false, true)] := by decide

/-- C8 (amended).  In `FastIntentClassifier.classify_intent` a tie at the
maximal score resolves to the intent whose pattern appears first in the
pattern-list order greeting > symptom > treatment > hospital > department >
deep-research > unbiased-factual > comprehensive (the insertion order of the
score dict, which Python's `max` scans keeping the first maximum), with the
additional rule that a best score below the threshold 10 yields
`symptom_inquiry`.  The documented order greeting > deep-research > symptom >
treatment > hospital > department is instead the check order of
`ActionOperatorAgent._detect_intent_by_keywords`, which returns the first
intent with a keyword hit in exactly that order. -/
theorem tiebreak_amended :
    (∀ (cache : List (List Char × String)) (q : String) (hist : List HistMsg),
      lookupA cache (pyStrip (pyLower q.data)) = none →
      ∃ pre suf w,
        (intentPatterns.map fun p => (p.intent, scoreIntent p (pyStrip (pyLower q.data)) hist))
          = pre ++ w :: suf ∧
        (∀ y ∈ pre, toRat y.2 < toRat w.2) ∧
        (∀ y ∈ pre ++ w :: suf, toRat y.2 ≤ toRat w.2) ∧
        (classify_intent cache q hist).1 =
          (if fle (fofNat 10) w.2 = true then w.1 else "symptom_inquiry")) ∧
    (∀ q : String, detect_intent_by_keywords q =
      (["greeting", "deep_medical_inquiry", "symptom_inquiry", "treatment_advice",
        "hospital_search", "department_inquiry"].find? fun i =>
          hasIntentKeyword i (pyLower q.data))) := by
  constructor
  · intro cache q hist hlook
    have hne : (intentPatterns.map fun p =>
        (p.intent, scoreIntent p (pyStrip (pyLower q.data)) hist)) ≠ [] := by
      simp [intentPatterns]
    have hpos : ∀ y ∈ (intentPatterns.map fun p =>
        (p.intent, scoreIntent p (pyStrip (pyLower q.data)) hist)), 0 < y.2.den := by
      intro y hy
      obtain ⟨p, hp, hpe⟩ := List.mem_map.mp hy
      rw [← hpe]
      exact scoreIntent_den_pos p _ hist
    obtain ⟨pre, suf, w, hfm, hdec, hlt, hle⟩ := firstMax_spec _ hne hpos
    obtain ⟨wi, ws⟩ := w
    refine ⟨pre, suf, (wi, ws), hdec, hlt, hdec ▸ hle, ?_⟩
    unfold classify_intent
    simp only [hlook, hfm]
  · intro q
    simp only [detect_intent_by_keywords, List.find?]
    by_cases h1 : hasIntentKeyword "greeting" (pyLower q.data) = true <;>
      by_cases h2 : hasIntentKeyword "deep_medical_inquiry" (pyLower q.data) = true <;>
      by_cases h3 : hasIntentKeyword "symptom_inquiry" (pyLower q.data) = true <;>
      by_cases h4 : hasIntentKeyword "treatment_advice" (pyLower q.data) = true <;>
      by_cases h5 : hasIntentKeyword "hospital_search" (pyLower q.data) = true <;>
      by_cases h6 : hasIntentKeyword "department_inquiry" (pyLower q.data) = true <;>
      simp [h1, h2, h3, h4, h5, h6]

/-- C8 (witness for the amended theorem at the concrete query `"hi"` with an
empty cache). -/
theorem tiebreak_amended_witness :
    ∃ pre suf w,
      (intentPatterns.map fun p => (p.intent, scoreIntent p (pyStrip (pyLower "hi".data)) []))
        = pre ++ w :: suf ∧
      (∀ y ∈ pre, toRat y.2 < toRat w.2) ∧
      (∀ y ∈ pre ++ w :: suf, toRat y.2 ≤ toRat w.2) ∧
      (classify_intent [] "hi" []).1 =
        (if fle (fofNat 10) w.2 = true then w.1 else "symptom_inquiry") :=
  tiebreak_amended.1 [] "hi" [] (by decide)

/-!
## C1 — exactly one terminal event, last, no chunk after it (corrected)
-/

/-- Is this a terminal event (`end` or `error`)? -/
def isTerminalEv (e : StreamEvent) : Bool := e.type == "end" || e.type == "error"

/-- Does a `chunk` event occur somewhere after a terminal event? -/
def chunkAfterTerminal : List StreamEvent → Bool
  | [] => false
  | e :: rest =>
    if isTerminalEv e then rest.any (fun c => c.type == "chunk") else chunkAfterTerminal rest

/-- The spec's `StreamEvent` invariant: exactly one terminal event, it is the
last element, and no `chunk` follows a terminal event. -/
def streamTerminalOk (evs : List StreamEvent) : Prop :=
  (evs.filter isTerminalEv).length = 1 ∧
  (∃ t, evs.getLast? = some t ∧ isTerminalEv t = true) ∧
  chunkAfterTerminal evs = false

lemma chunkAfterTerminal_of_pre (pre : List StreamEvent) (t : StreamEvent)
    (h1 : ∀ e ∈ pre, isTerminalEv e = false) :
    chunkAfterTerminal (pre ++ [t]) = (if isTerminalEv t then false else false) := by
  induction pre with
  | nil =>
    simp only [List.nil_append, chunkAfterTerminal]
    split <;> simp [chunkAfterTerminal]
  | cons e rest ih =>
    have he := h1 e (List.mem_cons_self ..)
    simp only [List.cons_append, chunkAfterTerminal, he]
    exact ih fun x hx => h1 x (List.mem_cons_of_mem _ hx)

lemma streamOk_shape (pre : List StreamEvent) (t : StreamEvent)
    (h1 : ∀ e ∈ pre, isTerminalEv e = false) (h2 : isTerminalEv t = true) :
    streamTerminalOk (pre ++ [t]) := by
  refine ⟨?_, ⟨t, ?_, h2⟩, ?_⟩
  · rw [List.filter_append]
    have hp : pre.filter isTerminalEv = [] := by
      rw [List.filter_eq_nil_iff]
      intro e he
      simp [h1 e he]
    simp [hp, h2]
  · simp
  · rw [chunkAfterTerminal_of_pre pre t h1]
    simp

lemma sonar_chunks_type (text : List Char) :
    ∀ e ∈ (sonarChunkData text).map fun c =>
      ({ type := "chunk", data := String.mk c, done := false } : StreamEvent),
      e.type = "chunk" := by
  intro e he
  obtain ⟨c, _, hce⟩ := List.mem_map.mp he
  rw [← hce]

/-- C1 (amended).  `SonarAgent.generate_streaming_response` always satisfies
the terminal invariant (one terminal event, last, no chunk after it), and
`process_with_langgraph_streaming` satisfies it on the rejection path and on
every successful generation; but when the inner agent stream reports an
`error` event, the relay loop (which has no `error` branch) drops it and the
outer stream ends with no terminal event at all. -/
theorem stream_terminal_amended :
    (∀ outcome, streamTerminalOk (sonar_generate_streaming_response outcome)) ∧
    (∀ (q sid uid : String) (g : Except String String) (i : String)
        (so : Except String (String × GenMeta)),
      is_healthcare_related q g = false →
      streamTerminalOk (process_with_langgraph_streaming q sid uid g i so).events) ∧
    (∀ (q sid uid : String) (g : Except String String) (i : String)
        (text : String) (md : GenMeta),
      is_healthcare_related q g = true →
      streamTerminalOk (process_with_langgraph_streaming q sid uid g i (.ok (text, md))).events) ∧
    (∀ (q sid uid : String) (g : Except String String) (i : String) (e : String),
      is_healthcare_related q g = true →
      (process_with_langgraph_streaming q sid uid g i (.error e)).events.filter isTerminalEv
        = []) := by
  have hsonar : ∀ outcome, streamTerminalOk (sonar_generate_streaming_response outcome) := by
    intro outcome
    cases outcome with
    | error e =>
      exact streamOk_shape [] _ (by simp) (by rfl)
    | ok pr =>
      obtain ⟨text, md⟩ := pr
      show streamTerminalOk (({ type := "start", data := "", done := false } ::
        ((sonarChunkData text.data).map fun c =>
          { type := "chunk", data := String.mk c, done := false })) ++ [_])
      refine streamOk_shape _ _ ?_ (by rfl)
      intro e he
      rcases List.mem_cons.mp he with rfl | he2
      · rfl
      · have := sonar_chunks_type text.data e he2
        simp [isTerminalEv, this]
  have relay_chunks : ∀ (sid uid i : String) (l : List (List Char)),
      (l.map fun c => ({ type := "chunk", data := String.mk c, done := false } :
        StreamEvent)).filterMap (langgraphRelayStep sid uid i) =
      l.map fun c => ({ type := "chunk", data := String.mk c, done := false } :
        StreamEvent) := by
    intro sid uid i l
    induction l with
    | nil => rfl
    | cons c cs ih =>
      simp only [List.map_cons, List.filterMap_cons]
      rw [ih]
      rfl
  have relay_ok : ∀ (sid uid i text : String) (md : GenMeta),
      (sonar_generate_streaming_response (.ok (text, md))).filterMap
          (langgraphRelayStep sid uid i) =
        ({ type := "start", data := "", done := false
           meta := { err := none, rejected := false, intent := some i } } ::
          (sonarChunkData text.data).map fun c =>
            ({ type := "chunk", data := String.mk c, done := false } : StreamEvent)) ++
        [{ type := "end", data := text, done := true
           message := some { text := text, sender := "bot", sessionId := sid
                             userId := uid, intent := some i, rejected := false } }] := by
    intro sid uid i text md
    dsimp only [sonar_generate_streaming_response]
    simp only [List.filterMap_cons, List.filterMap_append]
    rw [relay_chunks]
    rfl
  refine ⟨hsonar, fun q sid uid g i so hg => ?_, fun q sid uid g i text md hg => ?_,
    fun q sid uid g i e hg => ?_⟩
  · unfold process_with_langgraph_streaming
    rw [hg]
    show streamTerminalOk ([_, _] ++ [_])
    refine streamOk_shape _ _ ?_ (by rfl)
    intro e he
    rcases List.mem_cons.mp he with rfl | he2
    · rfl
    · rcases List.mem_cons.mp he2 with rfl | he3
      · rfl
      · cases he3
  · unfold process_with_langgraph_streaming
    rw [hg]
    show streamTerminalOk (_ :: _ :: _ ::
      (sonar_generate_streaming_response (.ok (text, md))).filterMap
        (langgraphRelayStep sid uid i))
    rw [relay_ok sid uid i text md]
    show streamTerminalOk ((_ :: _ :: _ :: _ ::
      ((sonarChunkData text.data).map fun c =>
        ({ type := "chunk", data := String.mk c, done := false } : StreamEvent))) ++ [_])
    refine streamOk_shape _ _ ?_ (by rfl)
    intro ev hev
    rcases List.mem_cons.mp hev with rfl | h2
    · rfl
    rcases List.mem_cons.mp h2 with rfl | h3
    · rfl
    rcases List.mem_cons.mp h3 with rfl | h4
    · rfl
    rcases List.mem_cons.mp h4 with rfl | h5
    · rfl
    have := sonar_chunks_type text.data ev h5
    simp [isTerminalEv, this]
  · unfold process_with_langgraph_streaming
    rw [hg]
    rfl

/-- C1 (witness for the amended theorem at a concrete healthcare query and a
successful one-sentence generation). -/
theorem stream_terminal_amended_witness :
    streamTerminalOk (process_with_langgraph_streaming "i have a headache" "s1" "u1"
      (.error "") "symptom_inquiry"
      (.ok ("Rest.", { sources := [], has_sources := false, grounded := false }))).events :=
  stream_terminal_amended.2.2.1 "i have a headache" "s1" "u1" (.error "") "symptom_inquiry"
    "Rest." { sources := [], has_sources := false, grounded := false } (by decide)

/-- C1 (counterexample).  With a healthcare query whose inner
`generate_response` raises (so the sonar stream is the single `error`
event), the relay of `process_with_langgraph_streaming` drops the error
event and the emitted sequence is three `status` events with no terminal
event — the claim "exactly one terminal event is emitted and it is last"
fails on this run. -/
theorem stream_terminal_counterexample :
    ¬ streamTerminalOk (process_with_langgraph_streaming "i have a headache" "s1" "u1"
      (.error "") "symptom_inquiry" (.error "boom")).events := by
  intro h
  have h2 := h.1
  revert h2
  decide

/-!
## C6 — gate denial short-circuits the pipeline (confirmed)
-/

/-- C6.  Whenever the healthcare gate denies a query, the langgraph pipeline
emits exactly `status`, `start`, `end`: the terminal `end` event carries the
fixed rejection text and a bot message flagged `rejected: true` with intent
`non_medical_query`, and no downstream component (intent classifier or
generation strategy) is invoked.  In `OptimizedStreamingService` the local
gate `_quick_healthcare_check` returns `True` on every input (all its
branches allow), so no query is ever denied there and the same property
holds vacuously. -/
theorem gate_denial_short_circuit :
    (∀ (q sid uid : String) (g : Except String String) (i : String)
        (so : Except String (String × GenMeta)),
      is_healthcare_related q g = false →
      (process_with_langgraph_streaming q sid uid g i so).invoked = [] ∧
      (process_with_langgraph_streaming q sid uid g i so).events =
        [{ type := "status", data := "Validating your question...", done := false },
         { type := "start", data := "", done := false
           meta := { rejected := true, intent := some "non_medical_query" } },
         { type := "end", data := rejectionText, done := true
           message := some { text := rejectionText, sender := "bot", sessionId := sid
                             userId := uid, intent := some "non_medical_query"
                             rejected := true } }]) ∧
    (∀ t : String, quick_healthcare_check t = true) := by
  constructor
  · intro q sid uid g i so hg
    unfold process_with_langgraph_streaming
    rw [hg]
    exact ⟨rfl, rfl⟩
  · intro t
    unfold quick_healthcare_check
    dsimp only
    split
    · rfl
    · split <;> rfl

/-- C6 (witness at the concrete denied query `"tell me about programming"`,
which hits the non-medical keyword list and no healthcare keyword). -/
theorem gate_denial_short_circuit_witness :
    (process_with_langgraph_streaming "tell me about programming" "s1" "u1" (.error "")
      "unknown" (.error "x")).invoked = [] ∧
    quick_healthcare_check "what is the best pizza topping" = true := by
  refine ⟨(gate_denial_short_circuit.1 "tell me about programming" "s1" "u1" (.error "")
    "unknown" (.error "x") (by decide)).1,
    gate_denial_short_circuit.2 "what is the best pizza topping"⟩

/-!
## C7 — raw exception strings in user-facing error text (corrected)
-/

/-- C7 (counterexample).  The claim "the raw exception string appears only in
metadata/logs and never in the user-facing text" is false: the `data` of the
terminal `error` event of `SonarAgent.generate_streaming_response` and the
`text` of the error message persisted and returned by the REST
`send_message` endpoint both embed `str(e)`. -/
theorem error_text_counterexample :
    ((sonar_generate_streaming_response (.error "boom")).map fun e => e.data) =
      ["Error generating response: boom"] ∧
    strHasSub "boom" (sendMessageErrorText "boom") = true ∧
    sendMessageErrorText "boom" ≠
      "I\x27m sorry, I encountered an error while processing your request. Please try again." := by
  refine ⟨by rfl, by decide, by decide⟩

/-- C7 (amended).  Exceptions caught by the orchestration layers
(`process_with_langgraph_streaming`, `process_message_optimized`,
`_stream_from_perplexity`, `process_message_streaming`, and the socket
handler's fallback) produce terminal `error` events whose user-facing text is
a fixed generic message independent of the exception, with the exception
string carried only in `metadata.error`; however,
`SonarAgent.generate_streaming_response` and the REST `send_message` error
path embed the raw exception string in the user-facing text. -/
theorem error_text_amended (e : String) :
    (langgraphExceptErrorEvent e).data =
      "I\x27m sorry, I encountered an error while processing your request. Please try again." ∧
    (langgraphExceptErrorEvent e).meta.err = some e ∧
    (optimizedErrorEvent e).data =
      "I\x27m experiencing technical difficulties. Please try again in a moment." ∧
    (optimizedErrorEvent e).meta.err = some e ∧
    (streamFromPerplexityErrorEvent e).data =
      "I encountered an error while generating your response. Please try again." ∧
    (streamFromPerplexityErrorEvent e).meta.err = some e ∧
    (streamingServiceErrorEvent e).data =
      "I\x27m sorry, I encountered an error while processing your request. Please try again." ∧
    (streamingServiceErrorEvent e).meta.err = some e ∧
    mainHandlerFallbackText =
      "I\x27m sorry, I encountered an error while processing your request. Please try again in a moment." ∧
    ((sonar_generate_streaming_response (.error e)).map fun ev => ev.data) =
      ["Error generating response: " ++ e] ∧
    sendMessageErrorText e = "Sorry, there was an error processing your message: " ++ e := by
  exact ⟨rfl, rfl, rfl, rfl, rfl, rfl, rfl, rfl, rfl, rfl, rfl⟩

/-!
## C9 — the duplicate-submission guard (confirmed)
-/

lemma dedupCleanup_keeps (now : Int) (cache : List DedupEntry) (e : DedupEntry)
    (he : e ∈ cache) (hfresh : now - e.ts ≤ 300) (hsize : cache.length ≤ 1000) :
    e ∈ dedupCleanup now cache := by
  unfold dedupCleanup
  have hmem : e ∈ cache.filter fun x => !(300 < now - x.ts) := by
    rw [List.mem_filter]
    refine ⟨he, by simp; omega⟩
  have hlen : (cache.filter fun x => !(300 < now - x.ts)).length ≤ 1000 :=
    le_trans (List.length_filter_le _ _) hsize
  rw [if_neg (by omega)]
  exact hmem

lemma dedupCleanup_length_le (now : Int) (c : List DedupEntry) :
    (dedupCleanup now c).length ≤ c.length := by
  unfold dedupCleanup
  dsimp only
  split
  · exact le_trans (List.length_filter_le _ _) (List.length_filter_le _ _)
  · exact List.length_filter_le _ _

lemma handler_fresh (cache : List DedupEntry) (now : Int) (sock uid sid text : String)
    (h1 : ¬(pyStrip text.data = []))
    (h2 : (cache.find? fun e =>
      e.key == msgKey uid.data sid.data (pyStrip text.data)) = none) :
    socket_message_handler cache now sock uid sid text =
      ([HandlerAction.persistUserMessage (String.mk (pyStrip text.data)),
        HandlerAction.emitUserMessage (String.mk (pyStrip text.data)),
        HandlerAction.processQuery (String.mk (pyStrip text.data))],
       if (cache ++ [(⟨msgKey uid.data sid.data (pyStrip text.data), now, sock⟩ :
            DedupEntry)]).length % 10 = 0
       then dedupCleanup now (cache ++ [(⟨msgKey uid.data sid.data (pyStrip text.data), now,
            sock⟩ : DedupEntry)])
       else cache ++ [(⟨msgKey uid.data sid.data (pyStrip text.data), now, sock⟩ :
            DedupEntry)]) := by
  dsimp only [socket_message_handler]
  rw [if_neg h1, h2]
  rfl

lemma handler_dup (cache : List DedupEntry) (now : Int) (sock uid sid text : String)
    (h1 : ¬(pyStrip text.data = []))
    (h2 : (cache.find? fun e =>
      e.key == msgKey uid.data sid.data (pyStrip text.data)).isSome = true) :
    socket_message_handler cache now sock uid sid text = ([], cache) := by
  dsimp only [socket_message_handler]
  rw [if_neg h1, if_pos h2]

/-- C9.  A first submission (dedup key absent) persists the user message and
starts processing exactly once, and stores the dedup entry; a second
identical `(user, session, text)` submission arriving while that entry is
still present — which holds throughout the 300-second window, including
across a cleanup sweep, as long as the cache stays within its size cap — is
dropped with no action at all: nothing is persisted, no processing (and
hence no second bot message) occurs, and the state is unchanged. -/
theorem dedup_drops_duplicate (cache : List DedupEntry) (now1 t now2 : Int)
    (sock1 sock2 uid sid text : String)
    (h1 : ¬(pyStrip text.data = []))
    (h2 : (cache.find? fun e =>
      e.key == msgKey uid.data sid.data (pyStrip text.data)) = none)
    (h3 : cache.length ≤ 999)
    (h4 : now1 ≤ t) (h5 : t - now1 ≤ 300) :
    (socket_message_handler cache now1 sock1 uid sid text).1 =
      [HandlerAction.persistUserMessage (String.mk (pyStrip text.data)),
       HandlerAction.emitUserMessage (String.mk (pyStrip text.data)),
       HandlerAction.processQuery (String.mk (pyStrip text.data))] ∧
    (socket_message_handler
        (dedupCleanup t (socket_message_handler cache now1 sock1 uid sid text).2)
        now2 sock2 uid sid text).1 = [] ∧
    (socket_message_handler
        (dedupCleanup t (socket_message_handler cache now1 sock1 uid sid text).2)
        now2 sock2 uid sid text).2 =
      dedupCleanup t (socket_message_handler cache now1 sock1 uid sid text).2 := by
  have hr1 := handler_fresh cache now1 sock1 uid sid text h1 h2
  set entry : DedupEntry := ⟨msgKey uid.data sid.data (pyStrip text.data), now1, sock1⟩ with hent
  have hmem1 : entry ∈ (socket_message_handler cache now1 sock1 uid sid text).2 := by
    rw [hr1]
    dsimp only
    split
    · exact dedupCleanup_keeps now1 _ entry (List.mem_append_right _ (List.mem_cons_self ..))
        (by simp [hent]) (by simp; omega)
    · exact List.mem_append_right _ (List.mem_cons_self ..)
  have hlen1 : (socket_message_handler cache now1 sock1 uid sid text).2.length ≤ 1000 := by
    rw [hr1]
    dsimp only
    split
    · exact le_trans (dedupCleanup_length_le _ _) (by simp; omega)
    · simp; omega
  have hmem2 : entry ∈ dedupCleanup t (socket_message_handler cache now1 sock1 uid sid text).2 :=
    dedupCleanup_keeps t _ entry hmem1 (by simp [hent]; omega) hlen1
  have hfind2 : ((dedupCleanup t (socket_message_handler cache now1 sock1 uid sid text).2).find?
      fun e => e.key == msgKey uid.data sid.data (pyStrip text.data)).isSome = true := by
    rw [List.find?_isSome]
    exact ⟨entry, hmem2, by simp [hent]⟩
  have hr2 := handler_dup _ now2 sock2 uid sid text h1 hfind2
  refine ⟨by rw [hr1], by rw [hr2], by rw [hr2]⟩

/-- C9 (witness at concrete inputs: empty cache, a submission at time 0, a
cleanup sweep at time 100 and the duplicate at time 150). -/
theorem dedup_drops_duplicate_witness :
    (socket_message_handler [] 0 "a" "u" "s" "hello").1 =
      [HandlerAction.persistUserMessage "hello", HandlerAction.emitUserMessage "hello",
       HandlerAction.processQuery "hello"] ∧
    (socket_message_handler (dedupCleanup 100 (socket_message_handler [] 0 "a" "u" "s" "hello").2)
      150 "b" "u" "s" "hello").1 = [] := by
  have h := dedup_drops_duplicate [] 0 100 150 "a" "b" "u" "s" "hello" (by decide) (by decide)
    (by decide) (by decide) (by decide)
  exact ⟨h.1, h.2.1⟩

/-!
## C10 — unauthorized or missing sessions degrade to empty history
(confirmed)
-/

/-- C10.  When the session does not exist, or its stored owner differs from
the requesting user, both history-retrieval functions return the empty list
(no exception), and `chat_service.process_message` goes on to process the
query with that empty history through the normal pipeline rather than
rejecting it. -/
theorem unauthorized_history_empty (st : Store) (cache : List SessCacheEntry) (now : Int)
    (sid uid : String) (limit : Nat) (text : String) (g : Except String String)
    (i : String) (so : Except String (String × GenMeta))
    (hauth : store_get_session st sid = none ∨
      ∃ sess, store_get_session st sid = some sess ∧ sess.userId ≠ uid)
    (hmiss : (cache.find? fun e => e.key == sid ++ ":" ++ uid) = none) :
    get_session_messages st sid uid = [] ∧
    get_session_messages_optimized cache now st sid uid limit = [] ∧
    chat_service_process_message st text sid uid g i so =
      ([], process_with_langgraph_streaming text sid uid g i so) := by
  have hgsm : get_session_messages st sid uid = [] := by
    unfold get_session_messages
    rcases hauth with h | ⟨sess, hsess, hne⟩
    · rw [h]
    · simp only [hsess]
      rw [if_pos (show (sess.userId != uid) = true from bne_iff_ne.mpr hne)]
  have hopt : get_session_messages_optimized cache now st sid uid limit = [] := by
    dsimp only [get_session_messages_optimized]
    simp only [hmiss]
    rcases hauth with h | ⟨sess, hsess, hne⟩
    · simp only [h]
    · simp only [hsess]
      rw [if_pos (show (sess.userId != uid) = true from bne_iff_ne.mpr hne)]
  refine ⟨hgsm, hopt, ?_⟩
  unfold chat_service_process_message
  rw [hgsm]

/-- C10 (witness: a store whose only session `"s1"` belongs to `"alice"`,
read by `"bob"`). -/
theorem unauthorized_history_empty_witness :
    get_session_messages
      ⟨[("s1", ⟨"alice"⟩)], [("s1", [⟨"hi", "user", 0⟩])]⟩ "s1" "bob" = [] ∧
    get_session_messages_optimized [] 0
      ⟨[("s1", ⟨"alice"⟩)], [("s1", [⟨"hi", "user", 0⟩])]⟩ "s1" "bob" 10 = [] := by
  have h := unauthorized_history_empty
    ⟨[("s1", ⟨"alice"⟩)], [("s1", [⟨"hi", "user", 0⟩])]⟩ [] 0 "s1" "bob" 10 "hello"
    (.error "") "unknown" (.error "")
    (Or.inr ⟨⟨"alice"⟩, by decide, by decide⟩) (by decide)
  exact ⟨h.1, h.2.1⟩

end SonarCare
